import Mathlib

/-! # minecrap_hoster: process supervisor and live-log sessions

A shallow embedding of `internal/minecraft/{types,server}.go` and
`internal/handlers/sse.go`.

Conventions of the embedding.

* A Go method with receiver `s *MinecraftServer` becomes a function from the
  state before the call to an `Outcome`: the returned value, the state after
  the call and the goroutines launched by `go` statements during the call.
* `sync.RWMutex` is not reentrant.  Its state is part of `MinecraftServer`; an
  acquisition that cannot proceed in the state at hand yields `Outcome.blocked`.
* Go run-time panics (nil dereference, slice bounds) yield `Outcome.panic`.
* Results of the operating system (pipe creation, process creation, signal
  delivery, writes to a pipe) are arguments of the operation: `none` is success,
  `some msg` is the error text.
* `error` values are their message text; `nil` is `none`.
* `log.Printf` output is not part of the state and is left out.
-/

namespace Hoster

/-! ## types.go -/

abbrev Stopped : Nat := 0
abbrev Starting : Nat := 1
abbrev Running : Nat := 2
abbrev Stopping : Nat := 3

/-- ServerConfig holds all server configuration parameters. -/
structure ServerConfig where
  JavaPath : String
  ExecutablePath : String
  MemoryUtilizationMB : Int
  MaxLogLines : Int
  UseG1GC : Bool
  ServerFlag : Bool
  deriving DecidableEq, Repr

/-- The part of `exec.Cmd` the supervisor reads: the program, its arguments and
the `Process` field, which is nil until the process has been started. -/
structure Cmd where
  Path : String
  Args : List String
  Process : Option Nat
  deriving DecidableEq, Repr

/-- An `io.WriteCloser` or `io.Reader` end of a pipe, identified by a descriptor. -/
structure Pipe where
  fd : Nat
  deriving DecidableEq, Repr

/-- State of a `sync.RWMutex`: whether a writer holds it, and how many readers do. -/
structure RWMutex where
  writer : Bool
  readers : Nat
  deriving DecidableEq, Repr

/-- The supervisor state, field for field as in `types.go`. `Status` is a `uint8`. -/
structure MinecraftServer where
  Command : Option Cmd
  Status : Nat
  LogBuf : List String
  stdin : Option Pipe
  mutex : RWMutex
  config : ServerConfig
  autoRestart : Bool
  deriving DecidableEq, Repr

/-- InitConfig returns default server configuration. -/
def InitConfig : ServerConfig :=
  { JavaPath := "java"
    ExecutablePath := "fabric-server-mc.1.20.1-loader.0.16.5-launcher.1.0.1.jar"
    MemoryUtilizationMB := 8192
    MaxLogLines := 1000
    UseG1GC := true
    ServerFlag := true }

/-! ## Outcomes of a call -/

/-- A goroutine launched by a `go` statement. -/
inductive Goroutine where
  | handleLogs (pipe : Pipe)
  | monitorProcess
  | delayedStart
  deriving DecidableEq, Repr

/-- What a call does: it returns, or waits for the mutex in a state where the
mutex is held, or panics, or is still polling when the modelled schedule ends. -/
inductive Outcome (α : Type) where
  | ret (val : α) (s : MinecraftServer) (spawned : List Goroutine)
  | blocked (s : MinecraftServer)
  | panic (msg : String)
  | polling (s : MinecraftServer)
  deriving DecidableEq, Repr

/-- The mutex with no holder. -/
def RWMutex.free : RWMutex := { writer := false, readers := 0 }

/-- `s.mutex.Lock()`: proceeds only when there is neither a writer nor a reader. -/
def Lock (s : MinecraftServer) : Option MinecraftServer :=
  if s.mutex.writer = false ∧ s.mutex.readers = 0 then
    some { s with mutex := { s.mutex with writer := true } }
  else none

/-- `s.mutex.Unlock()`: a run-time fatal error (`none`) when no writer holds it. -/
def Unlock (s : MinecraftServer) : Option MinecraftServer :=
  if s.mutex.writer = true then
    some { s with mutex := { s.mutex with writer := false } }
  else none

/-- `s.mutex.RLock()`: proceeds only when no writer holds the mutex. -/
def RLock (s : MinecraftServer) : Option MinecraftServer :=
  if s.mutex.writer = false then
    some { s with mutex := { s.mutex with readers := s.mutex.readers + 1 } }
  else none

/-- `s.mutex.RUnlock()`: a run-time fatal error (`none`) when there is no reader. -/
def RUnlock (s : MinecraftServer) : Option MinecraftServer :=
  if 0 < s.mutex.readers then
    some { s with mutex := { s.mutex with readers := s.mutex.readers - 1 } }
  else none

/-- The pattern `s.mutex.Lock(); defer s.mutex.Unlock(); body`. -/
def withLock {α : Type} (s : MinecraftServer) (body : MinecraftServer → Outcome α) :
    Outcome α :=
  match Lock s with
  | none => .blocked s
  | some s1 =>
    match body s1 with
    | .ret v s2 gs =>
      match Unlock s2 with
      | some s3 => .ret v s3 gs
      | none => .panic "fatal error: sync: Unlock of unlocked RWMutex"
    | other => other

/-- The pattern `s.mutex.RLock(); defer s.mutex.RUnlock(); body`. -/
def withRLock {α : Type} (s : MinecraftServer) (body : MinecraftServer → Outcome α) :
    Outcome α :=
  match RLock s with
  | none => .blocked s
  | some s1 =>
    match body s1 with
    | .ret v s2 gs =>
      match RUnlock s2 with
      | some s3 => .ret v s3 gs
      | none => .panic "fatal error: sync: RUnlock of unlocked RWMutex"
    | other => other

/-! ## server.go: log buffer -/

/-- The body of `addLogLine` under the lock. `s.LogBuf[1:]` panics on an empty
slice. -/
def addLogLineLocked (line : String) (s : MinecraftServer) : Outcome Unit :=
  if (s.LogBuf.length : Int) ≥ s.config.MaxLogLines then
    match s.LogBuf with
    | [] => .panic "runtime error: slice bounds out of range [1:0]"
    | _ :: rest => .ret () { s with LogBuf := rest ++ [line] } []
  else
    .ret () { s with LogBuf := s.LogBuf ++ [line] } []

def addLogLine (line : String) (s : MinecraftServer) : Outcome Unit :=
  withLock s (addLogLineLocked line)

def AddLog (line : String) (s : MinecraftServer) : Outcome Unit :=
  addLogLine line s

/-- Appending a sequence of lines, one `AddLog` call after the other. -/
def appendLines : List String → MinecraftServer → Outcome Unit
  | [], s => .ret () s []
  | line :: rest, s =>
    match AddLog line s with
    | .ret _ s1 _ => appendLines rest s1
    | other => other

/-! ## server.go: construction -/

/-- The checks of `validateConfig`; `some msg` is the panic it raises. -/
def validateConfig (config : ServerConfig) : Option String :=
  if config.JavaPath = "" then some "Java PATH must be non-empty."
  else if config.ExecutablePath = "" then
    some "The server's executable path must be non-empty."
  else if config.MemoryUtilizationMB ≤ 0 then some "Memory utilization must be positive."
  else if config.MaxLogLines ≤ 0 then some "Maximum log lines must be positive."
  else none

/-- Creates and validates a new MinecraftServer instance. -/
def NewServer (config : ServerConfig) : Except String MinecraftServer :=
  match validateConfig config with
  | some msg => .error msg
  | none =>
    .ok { Command := none, Status := Stopped, LogBuf := [], stdin := none,
          mutex := RWMutex.free, config := config, autoRestart := false }

def buildJavaArgs (config : ServerConfig) : List String :=
  let args : List String := []
  let args := if config.ServerFlag then args ++ ["-server"] else args
  let args := args ++ ["-Xmx" ++ toString config.MemoryUtilizationMB ++ "M"]
  let args := if config.UseG1GC then args ++ ["-XX:+UseG1GC"] else args
  args ++ ["-jar", config.ExecutablePath, "nogui"]

/-- Constructs the Java command: `exec.Command(name, args...)` gives a command that
has not been started (`Process` nil). -/
def buildJavaCommand (s : MinecraftServer) : Cmd :=
  { Path := s.config.JavaPath
    Args := s.config.JavaPath :: buildJavaArgs s.config
    Process := none }

/-! ## server.go: start -/

/-- What the operating system answers during one `Start`: the three pipe
creations and the process creation (the new process id). -/
structure StartEnv where
  stdinPipe : Except String Pipe
  stdoutPipe : Except String Pipe
  stderrPipe : Except String Pipe
  spawn : Except String Nat

def validateStartState (s : MinecraftServer) : Option String :=
  if s.Status ≠ Stopped then
    some ("cannot start server: current state is " ++ toString s.Status)
  else none

/-- On failure `StdinPipe` returns a nil stream, which the assignment stores. -/
def setupPipes (env : StartEnv) (s : MinecraftServer) : Outcome (Option String) :=
  match s.Command with
  | none => .panic "runtime error: invalid memory address or nil pointer dereference"
  | some _ =>
    match env.stdinPipe with
    | .error e => .ret (some ("failed to create stdin pipe: " ++ e)) { s with stdin := none } []
    | .ok w =>
      let s1 := { s with stdin := some w }
      match env.stdoutPipe with
      | .error e => .ret (some ("failed to create stdout pipe: " ++ e)) s1 []
      | .ok stdout =>
        match env.stderrPipe with
        | .error e => .ret (some ("failed to create stderr pipe: " ++ e)) s1 []
        | .ok stderr => .ret none s1 [.handleLogs stdout, .handleLogs stderr]

def handleStartError (_err : String) (s : MinecraftServer) : MinecraftServer :=
  { s with Status := Stopped, stdin := none }

def startMonitoring : List Goroutine := [.monitorProcess]

def initializeProcess (env : StartEnv) (s : MinecraftServer) : Outcome (Option String) :=
  let s1 := { s with Command := some (buildJavaCommand s) }
  match setupPipes env s1 with
  | .ret (some err) s2 gs => .ret (some err) s2 gs
  | .ret none s2 gs =>
    let s3 := { s2 with Status := Starting }
    match s3.Command with
    | none => .panic "runtime error: invalid memory address or nil pointer dereference"
    | some cmd =>
      match env.spawn with
      | .error e => .ret (some ("failed to start process: " ++ e)) (handleStartError e s3) gs
      | .ok pid =>
        let s4 := { s3 with Command := some { cmd with Process := some pid } }
        .ret none { s4 with Status := Running } (gs ++ startMonitoring)
  | other => other

/-- Initializes and starts the Minecraft server process. -/
def Start (env : StartEnv) (s : MinecraftServer) : Outcome (Option String) :=
  withLock s fun s =>
    match validateStartState s with
    | some err => .ret (some err) s []
    | none => initializeProcess env s

/-! ## server.go: process exit -/

def updateServerState (s : MinecraftServer) : MinecraftServer :=
  { s with Status := Stopped, stdin := none, Command := none }

/-- The goroutine launched by `handleAutoRestart` (sleep five seconds, then `Start`). -/
def handleAutoRestart : List Goroutine := [.delayedStart]

def handleProcessExit (_err : Option String) (wasRunning autoRestart : Bool)
    (s : MinecraftServer) : Outcome Unit :=
  let gs := if autoRestart && wasRunning then handleAutoRestart else []
  match AddLog "Server process has stopped" s with
  | .ret v s1 gs1 => .ret v s1 (gs ++ gs1)
  | other => other

/-- Monitors the server process and handles its termination: the step taken when
`s.Command.Wait()` returns `err`. -/
def monitorProcess (err : Option String) (s : MinecraftServer) : Outcome Unit :=
  match s.Command with
  | none => .panic "runtime error: invalid memory address or nil pointer dereference"
  | some _ =>
    match Lock s with
    | none => .blocked s
    | some s1 =>
      let wasRunning : Bool := s1.Status == Running
      let s2 := updateServerState s1
      let autoRestart := s2.autoRestart
      match Unlock s2 with
      | none => .panic "fatal error: sync: Unlock of unlocked RWMutex"
      | some s3 => handleProcessExit err wasRunning autoRestart s3

/-- The body of the goroutine `delayedStart`, once its sleep is over; a failure is
only logged. -/
def delayedStart (env : StartEnv) (s : MinecraftServer) : Outcome Unit :=
  match Start env s with
  | .ret _ s1 gs => .ret () s1 gs
  | .blocked s1 => .blocked s1
  | .panic msg => .panic msg
  | .polling s1 => .polling s1

/-! ## server.go: stop, force stop, restart -/

def validateStopState (s : MinecraftServer) : Option String :=
  if s.Status ≠ Running then
    some ("cannot stop server: current state is " ++ toString s.Status)
  else none

/-- The argument `writeErr` is the result of `fmt.Fprintln(s.stdin, "stop")`. -/
def sendStopCommand (writeErr : Option String) (s : MinecraftServer) : Option String :=
  match s.stdin with
  | none => some "server stdin is not available"
  | some _ =>
    match writeErr with
    | some e => some ("failed to send stop command: " ++ e)
    | none => none

/-- Initiates graceful server shutdown. -/
def Stop (writeErr : Option String) (s : MinecraftServer) : Outcome (Option String) :=
  withLock s fun s =>
    match validateStopState s with
    | some err => .ret (some err) s []
    | none =>
      match sendStopCommand writeErr s with
      | some err => .ret (some err) s []
      | none => .ret none { s with Status := Stopping } []

def validateForceStopState (s : MinecraftServer) : Option String :=
  if s.Command = none ∨ s.Status = Stopped then some "server is not running" else none

/-- Forces immediate server termination. The argument `killErr` is the result of
`s.Command.Process.Kill()`. -/
def ForceStop (killErr : Option String) (s : MinecraftServer) : Outcome (Option String) :=
  withLock s fun s =>
    match validateForceStopState s with
    | some err => .ret (some err) s []
    | none =>
      match s.Command with
      | none => .panic "runtime error: invalid memory address or nil pointer dereference"
      | some cmd =>
        match cmd.Process with
        | none => .panic "runtime error: invalid memory address or nil pointer dereference"
        | some _ =>
          match killErr with
          | some e => .ret (some ("failed to kill process: " ++ e)) s []
          | none => .ret none { s with Status := Stopping } []

/-- The loop of `waitForStop`. Each element of the schedule is what the other
goroutines do to the state during one sleep, while the mutex is released. -/
def waitForStop : List (MinecraftServer → MinecraftServer) → MinecraftServer → Outcome Unit
  | [], s =>
    if s.Status ≠ Stopped then
      match Unlock s with
      | none => .panic "fatal error: sync: Unlock of unlocked RWMutex"
      | some s1 => .polling s1
    else .ret () s []
  | others :: rest, s =>
    if s.Status ≠ Stopped then
      match Unlock s with
      | none => .panic "fatal error: sync: Unlock of unlocked RWMutex"
      | some s1 =>
        match Lock (others s1) with
        | none => .blocked (others s1)
        | some s2 => waitForStop rest s2
    else .ret () s []

/-- What the environment does during one `Restart`. -/
structure RestartEnv where
  stopWrite : Option String
  sleeps : List (MinecraftServer → MinecraftServer)
  start : StartEnv

/-- Performs a server restart operation. -/
def Restart (env : RestartEnv) (s : MinecraftServer) : Outcome (Option String) :=
  withLock s fun s =>
    if s.Status ≠ Running then
      .ret (some ("cannot restart server: current state is " ++ toString s.Status)) s []
    else
      match Stop env.stopWrite s with
      | .ret (some err) s1 gs =>
        .ret (some ("failed to stop server during restart: " ++ err)) s1 gs
      | .ret none s1 gs =>
        match waitForStop env.sleeps s1 with
        | .ret _ s2 gs2 =>
          match Start env.start s2 with
          | .ret r s3 gs3 => .ret r s3 (gs ++ gs2 ++ gs3)
          | other => other
        | .blocked s2 => .blocked s2
        | .panic msg => .panic msg
        | .polling s2 => .polling s2
      | other => other

/-! ## server.go: commands, flag, log access -/

/-- The argument `writeErr` is the result of `fmt.Fprintln(s.stdin, command)`. -/
def ExecuteCommand (_command : String) (writeErr : Option String) (s : MinecraftServer) :
    Outcome (Option String) :=
  withRLock s fun s =>
    if s.Status ≠ Running then
      .ret (some "cannot execute command: server is not running") s []
    else
      match s.stdin with
      | none => .ret (some "server stdin is not available") s []
      | some _ =>
        match writeErr with
        | some e => .ret (some ("failed to send command: " ++ e)) s []
        | none => .ret none s []

def ToggleAutoRestart (s : MinecraftServer) : Outcome Bool :=
  withLock s fun s =>
    let s1 := { s with autoRestart := !s.autoRestart }
    .ret s1.autoRestart s1 []

def GetAutoRestart (s : MinecraftServer) : Outcome Bool :=
  withRLock s fun s => .ret s.autoRestart s []

def GetLogs (s : MinecraftServer) : Outcome (List String) :=
  withRLock s fun s => .ret s.LogBuf s []

/-- The argument `index` is a Go `int`; a negative one makes `s.LogBuf[index:]` panic. -/
def GetLogsSince (index : Int) (s : MinecraftServer) : Outcome (List String) :=
  withRLock s fun s =>
    if index ≥ (s.LogBuf.length : Int) then .ret [] s []
    else if index < 0 then .panic "runtime error: slice bounds out of range"
    else .ret (s.LogBuf.drop index.toNat) s []

/-! ## handlers.go: status rendering -/

/-- Converts server status to styled HTML representation. -/
def getStatusHTML (status : Nat) : String :=
  let config : String × String :=
    if status = Running then ("green", "Running")
    else if status = Starting then ("blue", "Starting")
    else if status = Stopping then ("yellow", "Stopping")
    else if status = Stopped then ("red", "Stopped")
    else ("gray", "Unknown")
  "<span class=\"px-2 py-1 bg-" ++ config.1 ++ "-100 text-" ++ config.1 ++
    "-800 rounded-full\">" ++ config.2 ++ "</span>"

/-! ## sse.go -/

/-- Configures server-sent events streaming parameters (durations in nanoseconds). -/
structure SSEConfig where
  HeartbeatInterval : Nat
  PollInterval : Nat
  deriving DecidableEq, Repr

def DefaultSSEConfig : SSEConfig :=
  { HeartbeatInterval := 15 * 1000000000, PollInterval := 100 * 1000000 }

/-- An `http.ResponseWriter`: the headers set, the chunks written to the body in
order, the number of flushes, the error every write returns once the peer is gone
(`none` while the connection is healthy), and whether it implements
`http.Flusher`. -/
structure ResponseWriter where
  header : List (String × String)
  body : List String
  flushes : Nat
  failure : Option String
  isFlusher : Bool
  deriving DecidableEq, Repr

/-- Manages the state of an SSE connection. The field `flusher` of the source is
the writer itself. `seenLogs` lists the keys the map holds (each with value true). -/
structure sseConnection where
  writer : ResponseWriter
  seenLogs : List String
  lastLen : Int
  status : Nat
  config : SSEConfig
  deriving DecidableEq, Repr

/-- The call `w.Header().Set(key, value)`. -/
def headerSet (key value : String) (w : ResponseWriter) : ResponseWriter :=
  { w with header := (w.header.filter fun kv => kv.1 ≠ key) ++ [(key, value)] }

def setSSEHeaders (w : ResponseWriter) : ResponseWriter :=
  let headers : List (String × String) :=
    [ ("Content-Type", "text/event-stream"),
      ("Cache-Control", "no-cache"),
      ("Connection", "keep-alive"),
      ("Access-Control-Allow-Origin", "*"),
      ("X-Accel-Buffering", "no") ]
  headers.foldl (fun w kv => headerSet kv.1 kv.2 w) w

def newSSEConnection (w : ResponseWriter) (config : SSEConfig) : Except String sseConnection :=
  if w.isFlusher = false then .error "streaming unsupported"
  else
    .ok { writer := setSSEHeaders w, seenLogs := [], lastLen := 0, status := 0,
          config := config }

/-- The text `fmt.Fprintf` writes for one event. -/
def eventFrame (event data : String) : String :=
  "event: " ++ event ++ "\ndata: " ++ data ++ "\n\n"

def sendEvent (event data : String) (c : sseConnection) : Option String × sseConnection :=
  match c.writer.failure with
  | some err => (some err, c)
  | none =>
    (none, { c with writer := { c.writer with body := c.writer.body ++ [eventFrame event data],
                                              flushes := c.writer.flushes + 1 } })

/-- The loop of `sendLogBatch` over the lines from position `i` on. -/
def writeLines : Nat → List String → String → String
  | _, [], sb => sb
  | i, line :: rest, sb =>
    let sb := if i > 0 then sb ++ "\n" else sb
    writeLines (i + 1) rest (sb ++ line)

def sendLogBatch (logs : List String) (c : sseConnection) : Option String × sseConnection :=
  if logs.length = 0 then (none, c)
  else sendEvent "log" (writeLines 0 logs "") c

/-- Generates a unique hash for a log line. The argument `sha256hex` stands for the
library functions `sha256.Sum256` followed by `hex.EncodeToString`. -/
def hashLog (sha256hex : String → String) (log : String) : String :=
  sha256hex log

/-- The loop of `processNewLogs`: the lines still to visit, the keys seen and the
lines kept so far. -/
def processLoop (sha256hex : String → String) :
    List String → List String → List String → List String × List String
  | [], seen, newLogs => (newLogs, seen)
  | logLine :: rest, seen, newLogs =>
    let hash := hashLog sha256hex logLine
    if seen.contains hash = false then
      processLoop sha256hex rest (hash :: seen) (newLogs ++ [logLine])
    else processLoop sha256hex rest seen newLogs

def processNewLogs (sha256hex : String → String) (logs : List String) (c : sseConnection) :
    List String × sseConnection :=
  let r := processLoop sha256hex logs c.seenLogs []
  (r.1, { c with seenLogs := r.2 })

def sendInitialLogs (sha256hex : String → String) (c : sseConnection)
    (srv : MinecraftServer) : Outcome (Option String × sseConnection) :=
  match GetLogs srv with
  | .ret currentLogs srv1 _ =>
    let c1 := { c with lastLen := (currentLogs.length : Int) }
    let r := processNewLogs sha256hex currentLogs c1
    if r.1.length > 0 then .ret (sendLogBatch r.1 r.2) srv1 []
    else .ret (none, r.2) srv1 []
  | .blocked s => .blocked s
  | .panic msg => .panic msg
  | .polling s => .polling s

def sseConnection.initialize (sha256hex : String → String) (c : sseConnection)
    (srv : MinecraftServer) : Outcome (Option String × sseConnection) :=
  match sendEvent "connected" "Connected to log stream" c with
  | (some err, c1) => .ret (some ("failed to send connected event: " ++ err), c1) srv []
  | (none, c1) =>
    let c2 := { c1 with status := srv.Status }
    match sendEvent "status" (getStatusHTML c2.status) c2 with
    | (some err, c3) => .ret (some ("failed to send initial status: " ++ err), c3) srv []
    | (none, c3) =>
      match sendInitialLogs sha256hex c3 srv with
      | .ret (some err, c4) srv1 gs =>
        .ret (some ("failed to send initial logs: " ++ err), c4) srv1 gs
      | other => other

def checkStatus (c : sseConnection) (srv : MinecraftServer) : Option String × sseConnection :=
  let currentStatus := srv.Status
  if currentStatus ≠ c.status then
    match sendEvent "status" (getStatusHTML currentStatus) c with
    | (some err, c1) => (some err, c1)
    | (none, c1) => (none, { c1 with status := currentStatus })
  else (none, c)

def checkNewLogs (sha256hex : String → String) (c : sseConnection)
    (srv : MinecraftServer) : Outcome (Option String × sseConnection) :=
  match GetLogs srv with
  | .ret currentLogs srv1 _ =>
    let currentLen : Int := currentLogs.length
    if currentLen > c.lastLen then
      if c.lastLen < 0 then .panic "runtime error: slice bounds out of range"
      else
        let r := processNewLogs sha256hex (currentLogs.drop c.lastLen.toNat) c
        if r.1.length > 0 then
          match sendLogBatch r.1 r.2 with
          | (some err, c1) => .ret (some err, c1) srv1 []
          | (none, c1) => .ret (none, { c1 with lastLen := currentLen }) srv1 []
        else .ret (none, { r.2 with lastLen := currentLen }) srv1 []
    else .ret (none, c) srv1 []
  | .blocked s => .blocked s
  | .panic msg => .panic msg
  | .polling s => .polling s

def processUpdates (sha256hex : String → String) (c : sseConnection)
    (srv : MinecraftServer) : Outcome (Option String × sseConnection) :=
  match checkStatus c srv with
  | (some err, c1) => .ret (some ("status check failed: " ++ err), c1) srv []
  | (none, c1) =>
    match checkNewLogs sha256hex c1 srv with
    | .ret (some err, c2) srv1 gs => .ret (some ("log check failed: " ++ err), c2) srv1 gs
    | other => other

/-- One thing that happens while a session streams: an iteration of the loop of
`streamLogs` taking the `done` branch, the heartbeat branch or the default branch,
or another goroutine appending a line between two iterations. -/
inductive Tick where
  | done
  | heartbeat
  | poll
  | addLog (line : String)
  deriving DecidableEq, Repr

/-- The loop of `streamLogs` along a schedule. The value returned tells whether the
loop has returned (`true`) or is still running when the schedule ends. -/
def streamLogs (sha256hex : String → String) :
    List Tick → sseConnection → MinecraftServer → Outcome (Bool × sseConnection)
  | [], c, srv => .ret (false, c) srv []
  | .done :: _, c, srv => .ret (true, c) srv []
  | .heartbeat :: rest, c, srv =>
    match sendEvent "heartbeat" "ping" c with
    | (some _, c1) => .ret (true, c1) srv []
    | (none, c1) => streamLogs sha256hex rest c1 srv
  | .poll :: rest, c, srv =>
    match processUpdates sha256hex c srv with
    | .ret (some _, c1) srv1 _ => .ret (true, c1) srv1 []
    | .ret (none, c1) srv1 _ => streamLogs sha256hex rest c1 srv1
    | .blocked s => .blocked s
    | .panic msg => .panic msg
    | .polling s => .polling s
  | .addLog line :: rest, c, srv =>
    match AddLog line srv with
    | .ret _ srv1 _ => streamLogs sha256hex rest c srv1
    | .blocked s => .blocked s
    | .panic msg => .panic msg
    | .polling s => .polling s

/-- The session of `HandleLogs`: a new connection, its initialization, then the
streaming loop along a schedule. A failure before the loop is the `Except` error. -/
def HandleLogs (sha256hex : String → String) (w : ResponseWriter) (ticks : List Tick)
    (srv : MinecraftServer) : Outcome (Except String (Bool × sseConnection)) :=
  match newSSEConnection w DefaultSSEConfig with
  | .error err => .ret (.error err) srv []
  | .ok conn =>
    match sseConnection.initialize sha256hex conn srv with
    | .ret (some err, _) srv1 _ => .ret (.error err) srv1 []
    | .ret (none, c1) srv1 _ =>
      match streamLogs sha256hex ticks c1 srv1 with
      | .ret r srv2 _ => .ret (.ok r) srv2 []
      | .blocked s => .blocked s
      | .panic msg => .panic msg
      | .polling s => .polling s
    | .blocked s => .blocked s
    | .panic msg => .panic msg
    | .polling s => .polling s

/-! ## A concrete supervisor for the examples -/

/-- A configuration with room for three log lines. -/
def cfg3 : ServerConfig := { InitConfig with MaxLogLines := 3 }

/-- The supervisor `NewServer cfg3` builds. -/
def srv3 : MinecraftServer :=
  { Command := none, Status := Stopped, LogBuf := [], stdin := none,
    mutex := RWMutex.free, config := cfg3, autoRestart := false }

/-- An operating system that grants every request of a `Start`. -/
def envOk : StartEnv :=
  { stdinPipe := .ok { fd := 3 }, stdoutPipe := .ok { fd := 4 }, stderrPipe := .ok { fd := 5 },
    spawn := .ok 4242 }

/-- An operating system that creates the pipes and then fails to create the process. -/
def envSpawnFails : StartEnv :=
  { envOk with spawn := .error "exec: \"java\": executable file not found in $PATH" }

/-- An environment of `Restart` in which nothing fails and the monitor finishes
during the first sleep. -/
def restartEnvOk : RestartEnv :=
  { stopWrite := none, sleeps := [updateServerState], start := envOk }

/-- The supervisor `srv3` while its process runs. -/
def srv3Running : MinecraftServer :=
  { srv3 with
    Command := some { Path := "java", Args := ["java"], Process := some 4242 }
    Status := Running
    stdin := some { fd := 3 } }

/-- The supervisor `srv3` in the middle of a start. -/
def srv3Starting : MinecraftServer := { srv3Running with Status := Starting }

/-- An operating system that creates the stdin pipe and then fails to create the
stdout pipe. -/
def envStdoutPipeFails : StartEnv :=
  { envOk with stdoutPipe := .error "pipe: too many open files" }

/-- The supervisor `srv3Running` with auto-restart enabled. -/
def srv3Auto : MinecraftServer := { srv3Running with autoRestart := true }

/-- The supervisor `srv3` holding two log lines. -/
def srv3Logs : MinecraftServer := { srv3 with LogBuf := ["x", "y"] }

/-- The lines of a batch a session has not delivered yet, in the words of the
specification: a line is kept when its fingerprint is neither in the set `seen` nor
the fingerprint of an earlier line of the batch. -/
def keepUnseen (sha256hex : String → String) : List String → List String → List String
  | _, [] => []
  | seen, line :: rest =>
    if sha256hex line ∈ seen then keepUnseen sha256hex seen rest
    else line :: keepUnseen sha256hex (sha256hex line :: seen) rest

/-- A response writer of a client that is connected and supports streaming. -/
def w0 : ResponseWriter :=
  { header := [], body := [], flushes := 0, failure := none, isFlusher := true }

/-- The supervisor `srv3` holding the same line twice. -/
def srv3Twice : MinecraftServer := { srv3 with LogBuf := ["a", "a"] }

/-- The lines a schedule appends, in order. -/
def appendedLines : List Tick → List String
  | [] => []
  | .addLog line :: rest => line :: appendedLines rest
  | _ :: rest => appendedLines rest

/-- The frame of a log event carrying a batch of lines. -/
def logFrame (batch : List String) : String :=
  eventFrame "log" ("\n".intercalate batch)

/-- The state of a session that is in step with the log buffer: the buffer holds
the lines `del ++ pend`, the cursor stands after `del`, the log events written
after the frames `base` carry exactly the lines `del` in non-empty batches, and
every fingerprint seen belongs to a line of `del`. -/
structure Synced (sha256hex : String → String) (base del pend : List String)
    (c : sseConnection) (srv : MinecraftServer) : Prop where
  free : srv.mutex = RWMutex.free
  buf : srv.LogBuf = del ++ pend
  healthy : c.writer.failure = none
  status : c.status = srv.Status
  cursor : c.lastLen = (del.length : Int)
  seen : ∀ h ∈ c.seenLogs, h ∈ del.map sha256hex
  body : ∃ batches : List (List String),
    c.writer.body = base ++ batches.map logFrame ∧ (∀ b ∈ batches, b ≠ []) ∧
      batches.flatten = del

/-- The supervisor `srv3` with a full log buffer. -/
def srv3Full : MinecraftServer := { srv3 with LogBuf := ["a", "b", "c"] }

/-- A session on `srv3Full` that has delivered the three buffered lines. -/
def conn3Full : sseConnection :=
  { writer :=
      { w0 with
        body := [eventFrame "connected" "Connected to log stream",
                 eventFrame "status" (getStatusHTML Stopped),
                 eventFrame "log" "a\nb\nc"]
        flushes := 3 }
    seenLogs := ["c", "b", "a"]
    lastLen := 3
    status := Stopped
    config := DefaultSSEConfig }

/-- An operation on the supervisor other than the toggle: a call of `Start`,
`Stop`, `ForceStop`, `ExecuteCommand` or `AddLog` with what the operating system
answers, or the monitor step at the exit of the process. -/
inductive Op where
  | start (env : StartEnv)
  | stop (writeErr : Option String)
  | forceStop (killErr : Option String)
  | executeCommand (command : String) (writeErr : Option String)
  | addLog (line : String)
  | processExit (err : Option String)

/-- The outcome of a call with the value it returns dropped. -/
def Outcome.discard {α : Type} : Outcome α → Outcome Unit
  | .ret _ s gs => .ret () s gs
  | .blocked s => .blocked s
  | .panic msg => .panic msg
  | .polling s => .polling s

/-- One operation applied to a state. -/
def Op.run : Op → MinecraftServer → Outcome Unit
  | .start env, s => (Start env s).discard
  | .stop writeErr, s => (Stop writeErr s).discard
  | .forceStop killErr, s => (ForceStop killErr s).discard
  | .executeCommand command writeErr, s => (ExecuteCommand command writeErr s).discard
  | .addLog line, s => AddLog line s
  | .processExit err, s => monitorProcess err s

/-- A sequence of operations, one after the other; the goroutines launched are
collected. -/
def runOps : List Op → MinecraftServer → Outcome Unit
  | [], s => .ret () s []
  | op :: rest, s =>
    match op.run s with
    | .ret _ s1 gs =>
      match runOps rest s1 with
      | .ret _ s2 gs2 => .ret () s2 (gs ++ gs2)
      | other => other
    | other => other

/-- Whether the process handle is set and its process has been started. -/
def processAlive (s : MinecraftServer) : Bool :=
  match s.Command with
  | some cmd => cmd.Process.isSome
  | none => false

/-- Whether an operation can take place in a state: the exit of the process can be
observed only when a process has been started and its exit not yet observed. -/
def Op.enabled : Op → MinecraftServer → Bool
  | .processExit _, s => processAlive s
  | _, _ => true

/-- A sequence of operations each of which can take place when its turn comes. -/
def Feasible : List Op → MinecraftServer → Prop
  | [], _ => True
  | op :: rest, s =>
    op.enabled s = true ∧ ∀ s1 gs, op.run s = .ret () s1 gs → Feasible rest s1

/-- The states the supervisor is in between calls once `NewServer` has built it:
the mutex is free, the log capacity is positive, and a status other than `Stopped`
comes with a started process. -/
structure WellFormed (s : MinecraftServer) : Prop where
  free : s.mutex = RWMutex.free
  capacity : 0 < s.config.MaxLogLines
  alive : s.Status ≠ Stopped → processAlive s = true

/-- A day in the life of the supervisor: a start, a log line, a command, a graceful
stop, the exit of the process, a start that fails and a force stop. -/
def opsDay : List Op :=
  [.start envOk, .addLog "Done (3.2s)!", .executeCommand "say hi" none, .stop none,
   .processExit none, .start envSpawnFails, .forceStop none]

/-- The state of a session none of whose delivered lines repeats: the writer is
healthy, the cursor is not negative, the frames written after the frames `base` are
those of a list of events (name and data), the data of its log events are the
newline-joined `batches`, no two lines of the batches have the same fingerprint,
and the fingerprint of each of them is in the set of the session. -/
structure NoRepeat (sha256hex : String → String) (base : List String) (c : sseConnection) :
    Prop where
  healthy : c.writer.failure = none
  cursor : 0 ≤ c.lastLen
  events : ∃ (evs : List (String × String)) (batches : List (List String)),
    c.writer.body = base ++ evs.map (fun e => eventFrame e.1 e.2) ∧
    (evs.filter (fun e => e.1 == "log")).map Prod.snd
      = batches.map (fun b => "\n".intercalate b) ∧
    (batches.flatten.map sha256hex).Nodup ∧
    ∀ l ∈ batches.flatten, sha256hex l ∈ c.seenLogs

/-! ## The mutex patterns on a free mutex -/

theorem withLock_free {α : Type} (s : MinecraftServer) (body : MinecraftServer → Outcome α)
    (hfree : s.mutex = RWMutex.free) :
    withLock s body =
      match body { s with mutex := { writer := true, readers := 0 } } with
      | .ret v s2 gs =>
        match Unlock s2 with
        | some s3 => .ret v s3 gs
        | none => .panic "fatal error: sync: Unlock of unlocked RWMutex"
      | other => other := by
  obtain ⟨cmd, st, buf, sin, mtx, cfg, ar⟩ := s
  simp only at hfree
  subst hfree
  simp [withLock, Lock, RWMutex.free]

theorem withRLock_free {α : Type} (s : MinecraftServer) (body : MinecraftServer → Outcome α)
    (hfree : s.mutex = RWMutex.free) :
    withRLock s body =
      match body { s with mutex := { writer := false, readers := 1 } } with
      | .ret v s2 gs =>
        match RUnlock s2 with
        | some s3 => .ret v s3 gs
        | none => .panic "fatal error: sync: RUnlock of unlocked RWMutex"
      | other => other := by
  obtain ⟨cmd, st, buf, sin, mtx, cfg, ar⟩ := s
  simp only at hfree
  subst hfree
  simp [withRLock, RLock, RWMutex.free]

/-! ## Log buffer -/

theorem addLogLine_ret (line : String) (s : MinecraftServer)
    (hfree : s.mutex = RWMutex.free) (hcap : 0 < s.config.MaxLogLines) :
    addLogLine line s = .ret ()
      { s with LogBuf := (if (s.LogBuf.length : Int) ≥ s.config.MaxLogLines
                          then s.LogBuf.drop 1 else s.LogBuf) ++ [line] } [] := by
  rw [addLogLine, withLock_free s _ hfree]
  obtain ⟨cmd, st, buf, sin, mtx, cfg, ar⟩ := s
  simp only at hfree hcap
  subst hfree
  by_cases h : (buf.length : Int) ≥ cfg.MaxLogLines
  · cases buf with
    | nil => simp at h; omega
    | cons b rest =>
      simp only [addLogLineLocked, if_pos h]
      simp [Unlock, RWMutex.free]
  · simp only [addLogLineLocked, if_neg h]
    simp [Unlock, RWMutex.free]

theorem drop_push_bounded (cap : Nat) (hcap : 0 < cap) (all : List String) (line : String) :
    (if cap ≤ (all.drop (all.length - cap)).length
      then (all.drop (all.length - cap)).drop 1 else all.drop (all.length - cap)) ++ [line]
      = (all ++ [line]).drop (all.length + 1 - cap) := by
  by_cases h : cap ≤ all.length
  · have h1 : (all.drop (all.length - cap)).length = cap := by
      simp only [List.length_drop]; omega
    rw [if_pos (by omega), List.drop_drop]
    have h2 : all.length - cap + 1 = all.length + 1 - cap := by omega
    rw [h2, List.drop_append_of_le_length (by omega)]
  · have h1 : all.length - cap = 0 := by omega
    have h2 : all.length + 1 - cap = 0 := by omega
    rw [h1, h2]
    simp only [List.drop_zero]
    rw [if_neg (by omega)]

theorem appendLines_ret (cap : Nat) (hcap : 0 < cap) (lines : List String) :
    ∀ (all : List String) (s : MinecraftServer), s.mutex = RWMutex.free →
      s.config.MaxLogLines = (cap : Int) → s.LogBuf = all.drop (all.length - cap) →
      appendLines lines s = .ret ()
        { s with LogBuf := (all ++ lines).drop ((all ++ lines).length - cap) } [] := by
  induction lines with
  | nil =>
    intro all s _ _ hbuf
    simp only [appendLines, List.append_nil, ← hbuf]
  | cons line rest ih =>
    intro all s hfree hcfg hbuf
    have hpos : 0 < s.config.MaxLogLines := by rw [hcfg]; exact_mod_cast hcap
    rw [appendLines, AddLog, addLogLine_ret line s hfree hpos]
    simp only
    have hnext := drop_push_bounded cap hcap all line
    have hstep := ih (all ++ [line])
      { s with LogBuf := (if (s.LogBuf.length : Int) ≥ s.config.MaxLogLines
                          then s.LogBuf.drop 1 else s.LogBuf) ++ [line] } hfree hcfg
      (by
        simp only [hcfg, hbuf, ge_iff_le, Nat.cast_le, List.length_append,
          List.length_singleton]
        exact hnext)
    rw [hstep]
    simp

/-- C1. With `MaxLogLines = capacity > 0`, `addLogLine` (and `AddLog`) applied to a
buffer of at most `capacity` lines returns, changes only the buffer and leaves at
most `capacity` lines; starting from the empty buffer, appending any sequence of
lines leaves exactly its last `min n capacity` lines, in append order. -/
theorem addLogLine_bounded_fifo (s : MinecraftServer) (capacity : Nat)
    (hfree : s.mutex = RWMutex.free) (hcap : 0 < capacity)
    (hcfg : s.config.MaxLogLines = (capacity : Int)) :
    (∀ line : String, s.LogBuf.length ≤ capacity →
      ∃ buf : List String,
        addLogLine line s = .ret () { s with LogBuf := buf } [] ∧
        AddLog line s = .ret () { s with LogBuf := buf } [] ∧
        buf.length ≤ capacity) ∧
    (∀ lines : List String, s.LogBuf = [] →
      appendLines lines s = .ret ()
        { s with LogBuf := lines.drop (lines.length - min lines.length capacity) } [] ∧
      (lines.drop (lines.length - min lines.length capacity)).length
        = min lines.length capacity) := by
  have hpos : 0 < s.config.MaxLogLines := by rw [hcfg]; exact_mod_cast hcap
  refine ⟨fun line hlen => ?_, fun lines hempty => ?_⟩
  · refine ⟨_, addLogLine_ret line s hfree hpos, addLogLine_ret line s hfree hpos, ?_⟩
    rw [hcfg]
    by_cases h : ((s.LogBuf.length : Nat) : Int) ≥ (capacity : Int)
    · rw [if_pos h]
      have h1 : capacity ≤ s.LogBuf.length := by exact_mod_cast h
      simp only [List.length_append, List.length_drop, List.length_singleton]
      omega
    · rw [if_neg h]
      have h1 : ¬ capacity ≤ s.LogBuf.length := by exact_mod_cast h
      simp only [List.length_append, List.length_singleton]
      omega
  · have hrun := appendLines_ret capacity hcap lines [] s hfree hcfg (by simp [hempty])
    simp only [List.nil_append] at hrun
    have hidx : lines.length - min lines.length capacity = lines.length - capacity := by
      omega
    refine ⟨by rw [hidx]; exact hrun, ?_⟩
    simp only [List.length_drop]
    omega

theorem addLogLine_bounded_fifo_witness :
    srv3.mutex = RWMutex.free ∧ 0 < 3 ∧ srv3.config.MaxLogLines = ((3 : Nat) : Int) ∧
      appendLines ["a", "b", "c", "d"] srv3
        = .ret () { srv3 with LogBuf := ["b", "c", "d"] } [] :=
  ⟨rfl, by decide, rfl,
    ((addLogLine_bounded_fifo srv3 3 rfl (by decide) rfl).2 ["a", "b", "c", "d"] rfl).1⟩

/-! ## Guards of the operations -/

/-- C2. No operation succeeds from a status that is not its valid source state:
`Start` with status other than `Stopped`, and `Stop`, `Restart` and `ExecuteCommand`
with status other than `Running`, each return an error, launch nothing and leave
the whole supervisor state (status, process handle, input stream, auto-restart
flag, log buffer) as it was. -/
theorem invalid_source_state_rejected (s : MinecraftServer) (hfree : s.mutex = RWMutex.free) :
    (s.Status ≠ Stopped → ∀ env : StartEnv,
      Start env s
        = .ret (some ("cannot start server: current state is " ++ toString s.Status)) s []) ∧
    (s.Status ≠ Running → ∀ writeErr : Option String,
      Stop writeErr s
        = .ret (some ("cannot stop server: current state is " ++ toString s.Status)) s []) ∧
    (s.Status ≠ Running → ∀ env : RestartEnv,
      Restart env s
        = .ret (some ("cannot restart server: current state is " ++ toString s.Status)) s []) ∧
    (s.Status ≠ Running → ∀ (command : String) (writeErr : Option String),
      ExecuteCommand command writeErr s
        = .ret (some "cannot execute command: server is not running") s []) := by
  obtain ⟨cmd, st, buf, sin, mtx, cfg, ar⟩ := s
  simp only at hfree
  subst hfree
  refine ⟨fun h env => ?_, fun h w => ?_, fun h env => ?_, fun h c w => ?_⟩
  · simp only [ne_eq] at h
    simp [Start, withLock, Lock, Unlock, RWMutex.free, validateStartState, h]
  · simp only [ne_eq] at h
    simp [Stop, withLock, Lock, Unlock, RWMutex.free, validateStopState, h]
  · simp only [ne_eq] at h
    simp [Restart, withLock, Lock, Unlock, RWMutex.free, h]
  · simp only [ne_eq] at h
    simp [ExecuteCommand, withRLock, RLock, RUnlock, RWMutex.free, h]

theorem invalid_source_state_rejected_witness :
    srv3Starting.mutex = RWMutex.free ∧
    Start envOk srv3Starting
      = .ret (some "cannot start server: current state is 1") srv3Starting [] ∧
    Stop none srv3Starting
      = .ret (some "cannot stop server: current state is 1") srv3Starting [] ∧
    Restart restartEnvOk srv3Starting
      = .ret (some "cannot restart server: current state is 1") srv3Starting [] ∧
    ExecuteCommand "say hi" none srv3Starting
      = .ret (some "cannot execute command: server is not running") srv3Starting [] :=
  have h := invalid_source_state_rejected srv3Starting rfl
  ⟨rfl, h.1 (by decide) envOk, h.2.1 (by decide) none, h.2.2.1 (by decide) restartEnvOk,
    h.2.2.2 (by decide) "say hi" none⟩

/-- C3. `Stop` called with status `Running`: when the input stream is present and
the write of the stop command succeeds it returns success at once with status
`Stopping` and every other field unchanged; when the input stream is absent it
fails with "server stdin is not available", and when the write fails it fails with
"failed to send stop command", both leaving the whole state (status `Running`
included) unchanged. -/
theorem Stop_from_running (s : MinecraftServer) (hfree : s.mutex = RWMutex.free)
    (hrun : s.Status = Running) :
    (∀ w : Pipe, s.stdin = some w →
      Stop none s = .ret none { s with Status := Stopping } []) ∧
    (s.stdin = none → ∀ writeErr : Option String,
      Stop writeErr s = .ret (some "server stdin is not available") s []) ∧
    (∀ (w : Pipe) (e : String), s.stdin = some w →
      Stop (some e) s = .ret (some ("failed to send stop command: " ++ e)) s []) := by
  obtain ⟨cmd, st, buf, sin, mtx, cfg, ar⟩ := s
  simp only at hfree hrun
  subst hfree hrun
  refine ⟨fun w h => ?_, fun h we => ?_, fun w e h => ?_⟩
  · simp only at h
    subst h
    simp [Stop, withLock, Lock, Unlock, RWMutex.free, validateStopState, sendStopCommand]
  · simp only at h
    subst h
    simp [Stop, withLock, Lock, Unlock, RWMutex.free, validateStopState, sendStopCommand]
  · simp only at h
    subst h
    simp [Stop, withLock, Lock, Unlock, RWMutex.free, validateStopState, sendStopCommand]

theorem Stop_from_running_witness :
    (srv3Running.mutex = RWMutex.free ∧ srv3Running.Status = Running ∧
      Stop none srv3Running = .ret none { srv3Running with Status := Stopping } [] ∧
      Stop (some "broken pipe") srv3Running
        = .ret (some "failed to send stop command: broken pipe") srv3Running []) ∧
    Stop none { srv3Running with stdin := none }
      = .ret (some "server stdin is not available") { srv3Running with stdin := none } [] :=
  have h := Stop_from_running srv3Running rfl rfl
  ⟨⟨rfl, rfl, h.1 { fd := 3 } rfl, h.2.2 { fd := 3 } "broken pipe" rfl⟩,
    (Stop_from_running { srv3Running with stdin := none } rfl rfl).2.1 rfl none⟩

/-! ## Start failures -/

/-- C4. Evaluation at the failing inputs: from the state `NewServer` builds, a
`Start` whose process creation fails returns an error with status `Stopped` and
the input stream cleared but the process handle still set, and a `Start` whose
stdout pipe creation fails returns an error with status `Stopped` and both the
process handle and the input stream still set; `updateServerState`, the sibling
used on process exit, clears all three. -/
theorem Start_failure_keeps_Command :
    NewServer cfg3 = .ok srv3 ∧
    Start envSpawnFails srv3
      = .ret (some "failed to start process: exec: \"java\": executable file not found in $PATH")
          { srv3 with Command := some (buildJavaCommand srv3) }
          [.handleLogs { fd := 4 }, .handleLogs { fd := 5 }] ∧
    ({ srv3 with Command := some (buildJavaCommand srv3) } : MinecraftServer).Status = Stopped ∧
    ({ srv3 with Command := some (buildJavaCommand srv3) } : MinecraftServer).Command ≠ none ∧
    Start envStdoutPipeFails srv3
      = .ret (some "failed to create stdout pipe: pipe: too many open files")
          { srv3 with Command := some (buildJavaCommand srv3), stdin := some { fd := 3 } } [] ∧
    (updateServerState { srv3 with Command := some (buildJavaCommand srv3) }).Command = none := by
  refine ⟨rfl, rfl, rfl, ?_, rfl, rfl⟩
  simp

/-! ## Restart -/

/-- C5. `Restart` called with status `Running` on a free mutex acquires the mutex
and then waits for it again inside `Stop`: the call is blocked with the mutex held
by itself, the stop command not written and the status still `Running`. In that
state every other operation waits for the mutex as well, so nothing releases it. -/
theorem Restart_running_blocks (env : RestartEnv) (s : MinecraftServer)
    (hfree : s.mutex = RWMutex.free) (hrun : s.Status = Running) :
    Restart env s = .blocked { s with mutex := { writer := true, readers := 0 } } ∧
    (∀ s1 : MinecraftServer, s1 = { s with mutex := { writer := true, readers := 0 } } →
      s1.Status = Running ∧
      (∀ w, Stop w s1 = .blocked s1) ∧
      (∀ e, s1.Command ≠ none → monitorProcess e s1 = .blocked s1) ∧
      (∀ e, Start e s1 = .blocked s1) ∧
      (∀ k, ForceStop k s1 = .blocked s1) ∧
      (∀ line, addLogLine line s1 = .blocked s1) ∧
      ToggleAutoRestart s1 = .blocked s1 ∧
      (∀ c w, ExecuteCommand c w s1 = .blocked s1) ∧
      GetLogs s1 = .blocked s1) := by
  obtain ⟨cmd, st, buf, sin, mtx, cfg, ar⟩ := s
  simp only at hfree hrun
  subst hfree hrun
  refine ⟨?_, ?_⟩
  · simp [Restart, Stop, withLock, Lock, RWMutex.free]
  · intro s1 hs1
    subst hs1
    refine ⟨rfl, ?_, ?_, ?_, ?_, ?_, ?_, ?_, ?_⟩
    · intro w; simp [Stop, withLock, Lock]
    · intro e hcmd
      cases cmd with
      | none => simp at hcmd
      | some c => simp [monitorProcess, Lock]
    · intro e; simp [Start, withLock, Lock]
    · intro k; simp [ForceStop, withLock, Lock]
    · intro line; simp [addLogLine, withLock, Lock]
    · simp [ToggleAutoRestart, withLock, Lock]
    · intro c w; simp [ExecuteCommand, withRLock, RLock]
    · simp [GetLogs, withRLock, RLock]

theorem Restart_running_blocks_witness :
    srv3Running.mutex = RWMutex.free ∧ srv3Running.Status = Running ∧
    Restart restartEnvOk srv3Running
      = .blocked { srv3Running with mutex := { writer := true, readers := 0 } } ∧
    monitorProcess none { srv3Running with mutex := { writer := true, readers := 0 } }
      = .blocked { srv3Running with mutex := { writer := true, readers := 0 } } :=
  have h := Restart_running_blocks restartEnvOk srv3Running rfl rfl
  ⟨rfl, rfl, h.1, (h.2 _ rfl).2.2.1 none (by decide)⟩

/-! ## Auto-restart -/

theorem monitorProcess_ret (err : Option String) (s : MinecraftServer)
    (hfree : s.mutex = RWMutex.free) (hcap : 0 < s.config.MaxLogLines)
    (hcmd : s.Command ≠ none) :
    monitorProcess err s = .ret ()
      { s with
        Status := Stopped, stdin := none, Command := none
        LogBuf := (if (s.LogBuf.length : Int) ≥ s.config.MaxLogLines
                    then s.LogBuf.drop 1 else s.LogBuf) ++ ["Server process has stopped"] }
      (if s.autoRestart = true ∧ s.Status = Running then [.delayedStart] else []) := by
  obtain ⟨cmd, st, buf, sin, mtx, cfg, ar⟩ := s
  simp only at hfree hcap hcmd
  subst hfree
  cases cmd with
  | none => simp at hcmd
  | some c =>
    have hlog := addLogLine_ret "Server process has stopped"
      { Command := none, Status := Stopped, LogBuf := buf, stdin := none,
        mutex := RWMutex.free, config := cfg, autoRestart := ar } rfl hcap
    simp only [monitorProcess, Lock, Unlock, updateServerState, handleProcessExit, AddLog,
      RWMutex.free, and_self, if_true] at hlog ⊢
    rw [hlog]
    by_cases h : ar = true ∧ st = Running
    · obtain ⟨h1, h2⟩ := h
      subst h1 h2
      simp [handleAutoRestart]
    · rw [if_neg h]
      have h2 : (ar && (st == Running)) = false := by
        cases ar <;> simp_all
      simp [h2]

/-- C6 as stated fails: with auto-restart enabled and status `Running`, after a
successful `Stop` (and likewise after a successful `ForceStop`) the monitor step at
process exit launches no delayed `Start`. -/
theorem autoRestart_skipped_after_stop :
    srv3Auto.autoRestart = true ∧ srv3Auto.Status = Running ∧
    Stop none srv3Auto = .ret none { srv3Auto with Status := Stopping } [] ∧
    ForceStop none srv3Auto = .ret none { srv3Auto with Status := Stopping } [] ∧
    monitorProcess none { srv3Auto with Status := Stopping }
      = .ret () { srv3 with autoRestart := true, LogBuf := ["Server process has stopped"] } [] ∧
    monitorProcess (some "signal: killed") { srv3Auto with Status := Stopping }
      = .ret () { srv3 with autoRestart := true, LogBuf := ["Server process has stopped"] } [] := by
  refine ⟨rfl, rfl, rfl, rfl, rfl, rfl⟩

/-- C6, amended. The monitor step at process exit launches the delayed `Start`
exactly when the auto-restart flag is set and the status is still `Running` at that
moment; after a successful `Stop` or `ForceStop` the status is `Stopping`, and the
monitor step launches nothing, whatever the flag. -/
theorem autoRestart_only_from_running (err : Option String) (s : MinecraftServer)
    (hfree : s.mutex = RWMutex.free) (hcap : 0 < s.config.MaxLogLines)
    (hcmd : s.Command ≠ none) :
    (∃ s1, monitorProcess err s = .ret () s1
      (if s.autoRestart = true ∧ s.Status = Running then [.delayedStart] else [])) ∧
    (∀ (writeErr : Option String) (s1 : MinecraftServer) (gs : List Goroutine),
      Stop writeErr s = .ret none s1 gs →
        s1.Status = Stopping ∧ ∃ s2, monitorProcess err s1 = .ret () s2 []) ∧
    (∀ (killErr : Option String) (s1 : MinecraftServer) (gs : List Goroutine),
      ForceStop killErr s = .ret none s1 gs →
        s1.Status = Stopping ∧ ∃ s2, monitorProcess err s1 = .ret () s2 []) := by
  refine ⟨⟨_, monitorProcess_ret err s hfree hcap hcmd⟩, ?_, ?_⟩
  · intro w s1 gs hstop
    have hs1 : s1 = { s with Status := Stopping } := by
      obtain ⟨cmd, st, buf, sin, mtx, cfg, ar⟩ := s
      simp only at hfree
      subst hfree
      by_cases hst : st = Running
      · cases sin with
        | none =>
          simp [Stop, withLock, Lock, Unlock, RWMutex.free, validateStopState,
            sendStopCommand, hst] at hstop
        | some p =>
          cases w with
          | none =>
            simp [Stop, withLock, Lock, Unlock, RWMutex.free, validateStopState,
              sendStopCommand, hst] at hstop
            rw [← hstop.1]
            rfl
          | some e =>
            simp [Stop, withLock, Lock, Unlock, RWMutex.free, validateStopState,
              sendStopCommand, hst] at hstop
      · simp [Stop, withLock, Lock, Unlock, RWMutex.free, validateStopState, hst] at hstop
    subst hs1
    refine ⟨rfl, ?_⟩
    have h := monitorProcess_ret err { s with Status := Stopping } hfree hcap hcmd
    simp only [Stopping, Running] at h
    simp only [show ¬ (s.autoRestart = true ∧ (3 : Nat) = 2) by simp, if_false] at h
    exact ⟨_, h⟩
  · intro k s1 gs hkill
    have hs1 : s1 = { s with Status := Stopping } := by
      obtain ⟨cmd, st, buf, sin, mtx, cfg, ar⟩ := s
      simp only at hfree
      subst hfree
      by_cases hst : st = Stopped
      · simp [ForceStop, withLock, Lock, Unlock, RWMutex.free, validateForceStopState,
          hst] at hkill
      · cases cmd with
        | none =>
          simp [ForceStop, withLock, Lock, Unlock, RWMutex.free, validateForceStopState] at hkill
        | some c =>
          cases hp : c.Process with
          | none =>
            simp [ForceStop, withLock, Lock, Unlock, RWMutex.free, validateForceStopState,
              hst, hp] at hkill
          | some pid =>
            cases k with
            | none =>
              simp [ForceStop, withLock, Lock, Unlock, RWMutex.free, validateForceStopState,
                hst, hp] at hkill
              rw [← hkill.1]
              rfl
            | some e =>
              simp [ForceStop, withLock, Lock, Unlock, RWMutex.free, validateForceStopState,
                hst, hp] at hkill
    subst hs1
    refine ⟨rfl, ?_⟩
    have h := monitorProcess_ret err { s with Status := Stopping } hfree hcap hcmd
    simp only [Stopping, Running] at h
    simp only [show ¬ (s.autoRestart = true ∧ (3 : Nat) = 2) by simp, if_false] at h
    exact ⟨_, h⟩

theorem autoRestart_only_from_running_witness :
    srv3Auto.mutex = RWMutex.free ∧ 0 < srv3Auto.config.MaxLogLines ∧
    srv3Auto.Command ≠ none ∧
    (∃ s1, monitorProcess none srv3Auto = .ret () s1 [.delayedStart]) ∧
    (∃ s2, monitorProcess none { srv3Auto with Status := Stopping } = .ret () s2 []) :=
  have h := autoRestart_only_from_running none srv3Auto rfl (by decide) (by decide)
  ⟨rfl, by decide, by decide, h.1, (h.2.1 none { srv3Auto with Status := Stopping } [] rfl).2⟩

/-! ## Reading the log buffer -/

theorem withRLock_ret {α : Type} (s : MinecraftServer) (v : α)
    (hw : s.mutex.writer = false) :
    withRLock s (fun s1 => .ret v s1 []) = .ret v s [] := by
  obtain ⟨cmd, st, buf, sin, ⟨w, r⟩, cfg, ar⟩ := s
  simp only at hw
  subst hw
  simp [withRLock, RLock, RUnlock]

theorem GetLogs_ret (s : MinecraftServer) (hw : s.mutex.writer = false) :
    GetLogs s = .ret s.LogBuf s [] := by
  obtain ⟨cmd, st, buf, sin, ⟨w, r⟩, cfg, ar⟩ := s
  simp only at hw
  subst hw
  simp [GetLogs, withRLock, RLock, RUnlock]

/-- C7. For every log buffer and every index `n ≥ 0` (no writer holding the
mutex), `GetLogsSince n` returns the empty sequence when `n` is at least the buffer
length and otherwise the buffer without its first `n` lines (length `len - n`, same
order); `GetLogs` returns the whole buffer and equals `GetLogsSince 0`; both leave
the supervisor state unchanged. -/
theorem GetLogsSince_suffix (s : MinecraftServer) (n : Int)
    (hw : s.mutex.writer = false) (hn : 0 ≤ n) :
    ((s.LogBuf.length : Int) ≤ n → GetLogsSince n s = .ret [] s []) ∧
    (n < (s.LogBuf.length : Int) →
      GetLogsSince n s = .ret (s.LogBuf.drop n.toNat) s [] ∧
      s.LogBuf = s.LogBuf.take n.toNat ++ s.LogBuf.drop n.toNat ∧
      (s.LogBuf.take n.toNat).length = n.toNat ∧
      (s.LogBuf.drop n.toNat).length = s.LogBuf.length - n.toNat) ∧
    GetLogs s = .ret s.LogBuf s [] ∧
    GetLogsSince 0 s = GetLogs s := by
  refine ⟨fun h => ?_, fun h => ⟨?_, ?_, ?_, ?_⟩, GetLogs_ret s hw, ?_⟩
  · obtain ⟨cmd, st, buf, sin, ⟨w, r⟩, cfg, ar⟩ := s
    simp only at hw h
    subst hw
    simp [GetLogsSince, withRLock, RLock, RUnlock, h]
  · obtain ⟨cmd, st, buf, sin, ⟨w, r⟩, cfg, ar⟩ := s
    simp only at hw h
    subst hw
    have h1 : ¬ (buf.length : Int) ≤ n := by omega
    have h2 : ¬ n < 0 := by omega
    simp [GetLogsSince, withRLock, RLock, RUnlock, h1, h2]
  · exact (List.take_append_drop n.toNat s.LogBuf).symm
  · simp only [List.length_take]
    omega
  · simp only [List.length_drop]
  · rw [GetLogs_ret s hw]
    obtain ⟨cmd, st, buf, sin, ⟨w, r⟩, cfg, ar⟩ := s
    simp only at hw
    subst hw
    cases buf with
    | nil => simp [GetLogsSince, withRLock, RLock, RUnlock]
    | cons b rest =>
      have h1 : ¬ ((rest.length : Int) + 1 ≤ 0) := by omega
      simp [GetLogsSince, withRLock, RLock, RUnlock, h1]

theorem GetLogsSince_suffix_witness :
    srv3Logs.mutex.writer = false ∧ (0 : Int) ≤ 1 ∧
    GetLogsSince 1 srv3Logs = .ret ["y"] srv3Logs [] ∧
    GetLogsSince 2 srv3Logs = .ret [] srv3Logs [] ∧
    GetLogs srv3Logs = .ret ["x", "y"] srv3Logs [] :=
  ⟨rfl, by decide,
    ((GetLogsSince_suffix srv3Logs 1 rfl (by decide)).2.1 (by decide)).1,
    (GetLogsSince_suffix srv3Logs 2 rfl (by decide)).1 (by decide),
    (GetLogsSince_suffix srv3Logs 1 rfl (by decide)).2.2.1⟩

/-! ## Force stop -/

/-- C10. `ForceStop` called when the status is `Stopped` (whatever the process
handle) or when the process handle is absent fails with "server is not running",
launches nothing and leaves the whole supervisor state as it was. -/
theorem ForceStop_not_running (killErr : Option String) (s : MinecraftServer)
    (hfree : s.mutex = RWMutex.free) (h : s.Status = Stopped ∨ s.Command = none) :
    ForceStop killErr s = .ret (some "server is not running") s [] := by
  obtain ⟨cmd, st, buf, sin, mtx, cfg, ar⟩ := s
  simp only at hfree h
  subst hfree
  have h1 : cmd = none ∨ st = Stopped := h.symm
  simp [ForceStop, withLock, Lock, Unlock, RWMutex.free, validateForceStopState, h1]

theorem ForceStop_not_running_witness :
    (srv3.mutex = RWMutex.free ∧ (srv3.Status = Stopped ∨ srv3.Command = none) ∧
      ForceStop none srv3 = .ret (some "server is not running") srv3 []) ∧
    ForceStop none { srv3Running with Status := Stopped }
      = .ret (some "server is not running") { srv3Running with Status := Stopped } [] ∧
    ForceStop none { srv3Running with Command := none }
      = .ret (some "server is not running") { srv3Running with Command := none } [] :=
  ⟨⟨rfl, Or.inl rfl, ForceStop_not_running none srv3 rfl (Or.inl rfl)⟩,
    ForceStop_not_running none { srv3Running with Status := Stopped } rfl (Or.inl rfl),
    ForceStop_not_running none { srv3Running with Command := none } rfl (Or.inr rfl)⟩

/-! ## Streaming sessions -/

theorem writeLines_succ (rest : List String) :
    ∀ (i : Nat) (sb : String),
      writeLines (i + 1) rest sb = String.intercalate.go sb "\n" rest := by
  induction rest with
  | nil => intro i sb; simp [writeLines, String.intercalate.go]
  | cons a rest ih =>
    intro i sb
    simp only [writeLines, String.intercalate.go]
    rw [if_pos (by omega), ih]

theorem writeLines_eq_intercalate (logs : List String) :
    writeLines 0 logs "" = "\n".intercalate logs := by
  cases logs with
  | nil => simp [writeLines, String.intercalate]
  | cons a rest =>
    simp only [writeLines, String.intercalate]
    rw [if_neg (by omega), writeLines_succ]
    simp

theorem processLoop_eq (H : String → String) (logs : List String) :
    ∀ (seen acc : List String),
      processLoop H logs seen acc
        = (acc ++ keepUnseen H seen logs,
           ((keepUnseen H seen logs).map H).reverse ++ seen) := by
  induction logs with
  | nil => intro seen acc; simp [processLoop, keepUnseen]
  | cons l rest ih =>
    intro seen acc
    by_cases h : H l ∈ seen
    · simp [processLoop, keepUnseen, hashLog, h, ih]
    · simp [processLoop, keepUnseen, hashLog, h, ih]

theorem keepUnseen_fresh (H : String → String) (logs : List String) :
    ∀ seen : List String, (logs.map H).Nodup → (∀ l ∈ logs, H l ∉ seen) →
      keepUnseen H seen logs = logs := by
  induction logs with
  | nil => intro seen _ _; simp [keepUnseen]
  | cons l rest ih =>
    intro seen hnd hdisj
    have h1 : H l ∉ seen := hdisj l (List.mem_cons_self l rest)
    rw [List.map_cons, List.nodup_cons] at hnd
    simp only [keepUnseen, if_neg h1]
    rw [ih (H l :: seen) hnd.2]
    intro x hx hmem
    rcases List.mem_cons.mp hmem with heq | hin
    · exact hnd.1 (heq ▸ List.mem_map_of_mem H hx)
    · exact hdisj x (List.mem_cons_of_mem l hx) hin

theorem keepUnseen_ne_nil (H : String → String) (logs : List String) (h : logs ≠ []) :
    keepUnseen H [] logs ≠ [] := by
  cases logs with
  | nil => exact absurd rfl h
  | cons l rest => simp [keepUnseen]

theorem setSSEHeaders_fields (w : ResponseWriter) :
    (setSSEHeaders w).body = w.body ∧ (setSSEHeaders w).failure = w.failure ∧
      (setSSEHeaders w).flushes = w.flushes ∧ (setSSEHeaders w).isFlusher = w.isFlusher := by
  simp [setSSEHeaders, headerSet]

theorem initialize_ret (H : String → String) (c : sseConnection) (srv : MinecraftServer)
    (hw : c.writer.failure = none) (hmx : srv.mutex.writer = false) (hseen : c.seenLogs = []) :
    ∃ c1, sseConnection.initialize H c srv = .ret (none, c1) srv [] ∧
      c1.lastLen = (srv.LogBuf.length : Int) ∧ c1.status = srv.Status ∧
      c1.writer.failure = none ∧
      c1.seenLogs = ((keepUnseen H [] srv.LogBuf).map H).reverse ∧
      c1.writer.body = c.writer.body ++
        [eventFrame "connected" "Connected to log stream",
         eventFrame "status" (getStatusHTML srv.Status)] ++
        (if srv.LogBuf = [] then []
         else [eventFrame "log" ("\n".intercalate (keepUnseen H [] srv.LogBuf))]) := by
  obtain ⟨⟨hd, body, fl, failure, isF⟩, seen, lastLen, status, config⟩ := c
  simp only at hw hseen
  subst hw hseen
  by_cases hbuf : srv.LogBuf = []
  · simp [ sseConnection.initialize, sendEvent, sendInitialLogs, GetLogs_ret srv hmx,
      processNewLogs, processLoop_eq, hbuf, keepUnseen]
  · have hk := keepUnseen_ne_nil H srv.LogBuf hbuf
    have hlen : 0 < (keepUnseen H [] srv.LogBuf).length := List.length_pos.mpr hk
    have hlen2 : (keepUnseen H [] srv.LogBuf).length ≠ 0 := by omega
    simp [ sseConnection.initialize, sendEvent, sendInitialLogs, GetLogs_ret srv hmx,
      processNewLogs, processLoop_eq, hbuf, sendLogBatch, hlen, hlen2,
      writeLines_eq_intercalate]

/-- C9 as stated fails: on connect to a buffer holding the same line twice, the
session emits a connected event, a status event and one log event whose payload is
that line once, not the two buffered lines joined with a newline; this is so
whatever function computes the fingerprints. -/
theorem connect_drops_repeated_line :
    srv3Twice.LogBuf = ["a", "a"] ∧
    eventFrame "log" "a" ≠ eventFrame "log" ("\n".intercalate ["a", "a"]) ∧
    (∀ H : String → String, ∃ c : sseConnection,
      HandleLogs H w0 [] srv3Twice = .ret (.ok (false, c)) srv3Twice [] ∧
      c.lastLen = 2 ∧
      c.writer.body =
        [eventFrame "connected" "Connected to log stream",
         eventFrame "status" (getStatusHTML Stopped),
         eventFrame "log" "a"]) := by
  refine ⟨rfl, by decide, fun H => ?_⟩
  obtain ⟨c1, hinit, hlast, _, _, _, hbody⟩ :=
    initialize_ret H
      { writer := setSSEHeaders w0, seenLogs := [], lastLen := 0, status := 0,
        config := DefaultSSEConfig } srv3Twice rfl rfl rfl
  refine ⟨c1, ?_, hlast, ?_⟩
  · have hflush : w0.isFlusher = true := rfl
    simp [HandleLogs, newSSEConnection, hflush, hinit, streamLogs]
  · rw [hbody]
    have hkeep : keepUnseen H [] srv3Twice.LogBuf = ["a"] := by
      simp [srv3Twice, keepUnseen]
    rw [hkeep]
    rfl

/-- C9, amended. On connect (writer healthy and able to flush, no writer holding
the mutex) the session emits, in order, a connected event and a status event for
the current status, and sets its cursor to the buffer length; for a non-empty
buffer it then emits one log event whose payload is the newline-joined buffer
lines, in buffer order, leaving out each line whose fingerprint already occurred
earlier in the buffer (so the full buffer when the fingerprints are pairwise
distinct); for an empty buffer it emits no log event. -/
theorem connect_sends_unseen_buffer (H : String → String) (w : ResponseWriter)
    (srv : MinecraftServer) (hw : w.failure = none) (hf : w.isFlusher = true)
    (hmx : srv.mutex.writer = false) :
    ∃ c : sseConnection,
      HandleLogs H w [] srv = .ret (.ok (false, c)) srv [] ∧
      c.lastLen = (srv.LogBuf.length : Int) ∧ c.status = srv.Status ∧
      (srv.LogBuf = [] → c.writer.body = w.body ++
        [eventFrame "connected" "Connected to log stream",
         eventFrame "status" (getStatusHTML srv.Status)]) ∧
      (srv.LogBuf ≠ [] → c.writer.body = w.body ++
        [eventFrame "connected" "Connected to log stream",
         eventFrame "status" (getStatusHTML srv.Status),
         eventFrame "log" ("\n".intercalate (keepUnseen H [] srv.LogBuf))]) ∧
      ((srv.LogBuf.map H).Nodup → keepUnseen H [] srv.LogBuf = srv.LogBuf) := by
  have hfields := setSSEHeaders_fields w
  obtain ⟨c1, hinit, hlast, hstatus, _, _, hbody⟩ :=
    initialize_ret H
      { writer := setSSEHeaders w, seenLogs := [], lastLen := 0, status := 0,
        config := DefaultSSEConfig } srv (by rw [hfields.2.1, hw]) hmx rfl
  refine ⟨c1, ?_, hlast, hstatus, ?_, ?_, ?_⟩
  · simp [HandleLogs, newSSEConnection, hf, hinit, streamLogs]
  · intro hempty
    rw [hbody, hfields.1, if_pos hempty]
    simp
  · intro hne
    rw [hbody, hfields.1, if_neg hne]
    simp
  · intro hnd
    exact keepUnseen_fresh H srv.LogBuf [] hnd (fun _ _ => List.not_mem_nil _)

theorem connect_sends_unseen_buffer_witness :
    w0.failure = none ∧ w0.isFlusher = true ∧ srv3Logs.mutex.writer = false ∧
    ∃ c : sseConnection,
      HandleLogs (fun l => l) w0 [] srv3Logs = .ret (.ok (false, c)) srv3Logs [] ∧
      c.lastLen = 2 ∧
      c.writer.body =
        [eventFrame "connected" "Connected to log stream",
         eventFrame "status" (getStatusHTML Stopped),
         eventFrame "log" "x\ny"] := by
  refine ⟨rfl, rfl, rfl, ?_⟩
  obtain ⟨c, hrun, hlast, _, _, hbody, hkeep⟩ :=
    connect_sends_unseen_buffer (fun l => l) w0 srv3Logs rfl rfl rfl
  refine ⟨c, hrun, hlast, ?_⟩
  rw [hbody (by decide), hkeep (by decide)]
  decide

theorem processUpdates_synced (H : String → String) (c : sseConnection)
    (srv : MinecraftServer) (del pend : List String)
    (hmx : srv.mutex.writer = false) (hbuf : srv.LogBuf = del ++ pend)
    (hfail : c.writer.failure = none) (hst : c.status = srv.Status)
    (hlast : c.lastLen = (del.length : Int))
    (hnd : (pend.map H).Nodup) (hdisj : ∀ l ∈ pend, H l ∉ c.seenLogs) :
    ∃ c1, processUpdates H c srv = .ret (none, c1) srv [] ∧
      c1.lastLen = ((del ++ pend).length : Int) ∧ c1.status = srv.Status ∧
      c1.writer.failure = none ∧
      c1.seenLogs = (pend.map H).reverse ++ c.seenLogs ∧
      c1.writer.body = c.writer.body ++ (if pend = [] then [] else [logFrame pend]) := by
  obtain ⟨⟨hd, body, fl, failure, isF⟩, seen, lastLen, status, config⟩ := c
  simp only at hfail hst hlast hdisj
  subst hfail hst hlast
  by_cases hp : pend = []
  · subst hp
    simp [processUpdates, checkStatus, checkNewLogs, GetLogs_ret srv hmx, hbuf]
  · have hkeep := keepUnseen_fresh H pend seen hnd hdisj
    have hlen : 0 < pend.length := List.length_pos.mpr hp
    have hlen2 : pend.length ≠ 0 := by omega
    have hgt : (del.length : Int) < (del.length : Int) + (pend.length : Int) := by omega
    have hneg : ¬ (del.length : Int) < 0 := by omega
    simp [processUpdates, checkStatus, checkNewLogs, GetLogs_ret srv hmx, hbuf,
      processNewLogs, processLoop_eq, hkeep, hp, hlen, hlen2, hgt, hneg, sendLogBatch,
      sendEvent,
      writeLines_eq_intercalate, logFrame]

theorem poll_synced (H : String → String) (base del pend : List String)
    (c : sseConnection) (srv : MinecraftServer) (hs : Synced H base del pend c srv)
    (hnd : ((del ++ pend).map H).Nodup) :
    ∃ c1, processUpdates H c srv = .ret (none, c1) srv [] ∧
      Synced H base (del ++ pend) [] c1 srv := by
  rw [List.map_append, List.nodup_append] at hnd
  obtain ⟨_, hndp, hdis⟩ := hnd
  have hmx : srv.mutex.writer = false := by rw [hs.free]; rfl
  have hdisj : ∀ l ∈ pend, H l ∉ c.seenLogs := fun l hl hmem =>
    hdis (hs.seen _ hmem) (List.mem_map_of_mem H hl)
  obtain ⟨c1, hrun, hlast, hst, hfail, hseen, hbody⟩ :=
    processUpdates_synced H c srv del pend hmx hs.buf hs.healthy hs.status hs.cursor hndp
      hdisj
  refine ⟨c1, hrun, ⟨hs.free, by rw [hs.buf, List.append_nil], hfail, hst, hlast, ?_, ?_⟩⟩
  · intro h hh
    rw [hseen] at hh
    rw [List.map_append]
    rcases List.mem_append.mp hh with h1 | h1
    · exact List.mem_append_right _ (List.mem_reverse.mp h1)
    · exact List.mem_append_left _ (hs.seen h h1)
  · obtain ⟨batches, hb, hne, hjoin⟩ := hs.body
    by_cases hp : pend = []
    · refine ⟨batches, ?_, hne, ?_⟩
      · rw [hbody, hb, if_pos hp, List.append_nil]
      · rw [hjoin, hp, List.append_nil]
    · refine ⟨batches ++ [pend], ?_, ?_, ?_⟩
      · rw [hbody, hb, if_neg hp]
        simp
      · intro b hb2
        rcases List.mem_append.mp hb2 with h1 | h1
        · exact hne b h1
        · rw [List.mem_singleton.mp h1]; exact hp
      · simp [hjoin]

theorem addLog_synced (H : String → String) (base del pend : List String) (line : String)
    (c : sseConnection) (srv : MinecraftServer) (hs : Synced H base del pend c srv)
    (hroom : ((del ++ pend).length : Int) < srv.config.MaxLogLines) :
    AddLog line srv = .ret () { srv with LogBuf := srv.LogBuf ++ [line] } [] ∧
      Synced H base del (pend ++ [line]) c { srv with LogBuf := srv.LogBuf ++ [line] } := by
  have hpos : 0 < srv.config.MaxLogLines := by
    have : (0 : Int) ≤ ((del ++ pend).length : Int) := Int.natCast_nonneg _
    omega
  have hno : ¬ ((srv.LogBuf.length : Int) ≥ srv.config.MaxLogLines) := by
    rw [hs.buf]; omega
  refine ⟨?_, ⟨hs.free, ?_, hs.healthy, hs.status, hs.cursor, hs.seen, hs.body⟩⟩
  · rw [AddLog, addLogLine_ret line srv hs.free hpos, if_neg hno]
  · simp [hs.buf]

theorem streamLogs_synced (H : String → String) (base all : List String)
    (hnd : (all.map H).Nodup) :
    ∀ (ticks : List Tick) (c : sseConnection) (srv : MinecraftServer) (del pend : List String),
      (∀ t ∈ ticks, t = Tick.poll ∨ ∃ l, t = Tick.addLog l) →
      del ++ pend ++ appendedLines ticks = all →
      (all.length : Int) ≤ srv.config.MaxLogLines →
      Synced H base del pend c srv →
      ∃ c1, streamLogs H (ticks ++ [Tick.poll]) c srv
          = .ret (false, c1) { srv with LogBuf := all } [] ∧
        Synced H base all [] c1 { srv with LogBuf := all } := by
  intro ticks
  induction ticks with
  | nil =>
    intro c srv del pend _ hall _ hs
    simp only [appendedLines, List.append_nil] at hall
    obtain ⟨c1, hrun, hs1⟩ := poll_synced H base del pend c srv hs (by rw [hall]; exact hnd)
    have hsrv : ({ srv with LogBuf := all } : MinecraftServer) = srv := by
      rw [← hall, ← hs.buf]
    rw [hsrv]
    refine ⟨c1, ?_, by rw [← hall]; exact hs1⟩
    simp [streamLogs, hrun]
  | cons t rest ih =>
    intro c srv del pend hticks hall hcap hs
    have hrest : ∀ t ∈ rest, t = Tick.poll ∨ ∃ l, t = Tick.addLog l :=
      fun t ht => hticks t (List.mem_cons_of_mem _ ht)
    rcases hticks t (List.mem_cons_self t rest) with ht | ⟨line, ht⟩
    · subst ht
      simp only [appendedLines] at hall
      have hnd1 : ((del ++ pend).map H).Nodup := by
        rw [← hall, List.map_append] at hnd
        exact (List.nodup_append.mp hnd).1
      obtain ⟨c1, hrun, hs1⟩ := poll_synced H base del pend c srv hs hnd1
      obtain ⟨c2, hrun2, hs2⟩ := ih c1 srv (del ++ pend) [] hrest
        (by rw [List.append_nil]; exact hall) hcap hs1
      refine ⟨c2, ?_, hs2⟩
      simp only [List.cons_append, streamLogs, hrun]
      exact hrun2
    · subst ht
      simp only [appendedLines] at hall
      have hlen : (del ++ pend).length + 1 + (appendedLines rest).length = all.length := by
        rw [← hall]; simp only [List.length_append, List.length_cons]; omega
      have hroom : ((del ++ pend).length : Int) < srv.config.MaxLogLines := by omega
      obtain ⟨hadd, hs1⟩ := addLog_synced H base del pend line c srv hs hroom
      obtain ⟨c2, hrun2, hs2⟩ := ih c { srv with LogBuf := srv.LogBuf ++ [line] } del
        (pend ++ [line]) hrest (by rw [← hall]; simp) hcap hs1
      refine ⟨c2, ?_, hs2⟩
      simp only [List.cons_append, streamLogs, hadd]
      exact hrun2

/-- C8. A session connects (writer healthy and able to flush) while the log buffer
is empty; afterwards pairwise-distinct lines, no two of which have the same
fingerprint and at most `MaxLogLines` in number, are appended, interleaved in any
way with the polls of the session, and one final poll follows. Then the session
has written a connected event, a status event, and then only log events; their
batches are non-empty and, concatenated in emission order, are exactly the appended
lines in append order. -/
theorem session_delivers_appended_lines (H : String → String) (w : ResponseWriter)
    (srv : MinecraftServer) (ticks : List Tick)
    (hw : w.failure = none) (hf : w.isFlusher = true)
    (hfree : srv.mutex = RWMutex.free) (hempty : srv.LogBuf = [])
    (hticks : ∀ t ∈ ticks, t = Tick.poll ∨ ∃ l, t = Tick.addLog l)
    (hdistinct : (appendedLines ticks).Nodup)
    (hcoll : ∀ a ∈ appendedLines ticks, ∀ b ∈ appendedLines ticks, H a = H b → a = b)
    (hcap : ((appendedLines ticks).length : Int) ≤ srv.config.MaxLogLines) :
    ∃ (c : sseConnection) (batches : List (List String)),
      HandleLogs H w (ticks ++ [Tick.poll]) srv
        = .ret (.ok (false, c)) { srv with LogBuf := appendedLines ticks } [] ∧
      c.writer.body = w.body ++
        [eventFrame "connected" "Connected to log stream",
         eventFrame "status" (getStatusHTML srv.Status)] ++
        batches.map (fun b => eventFrame "log" ("\n".intercalate b)) ∧
      (∀ b ∈ batches, b ≠ []) ∧
      batches.flatten = appendedLines ticks ∧
      c.lastLen = ((appendedLines ticks).length : Int) := by
  have hfields := setSSEHeaders_fields w
  have hmx : srv.mutex.writer = false := by rw [hfree]; rfl
  obtain ⟨c0, hinit, hlast, hstatus, hfail, hseen, hbody⟩ :=
    initialize_ret H
      { writer := setSSEHeaders w, seenLogs := [], lastLen := 0, status := 0,
        config := DefaultSSEConfig } srv (by rw [hfields.2.1, hw]) hmx rfl
  have hsync : Synced H
      (w.body ++ [eventFrame "connected" "Connected to log stream",
        eventFrame "status" (getStatusHTML srv.Status)]) [] [] c0 srv := by
    refine ⟨hfree, by simp [hempty], hfail, hstatus, by simp [hlast, hempty], ?_, ?_⟩
    · intro h hh
      rw [hseen, hempty] at hh
      simp [keepUnseen] at hh
    · refine ⟨[], ?_, by simp, rfl⟩
      rw [hbody, hfields.1, if_pos hempty]
      simp
  have hnd : ((appendedLines ticks).map H).Nodup :=
    List.Nodup.map_on (fun a ha b hb hab => hcoll a ha b hb hab) hdistinct
  obtain ⟨c1, hrun, hs1⟩ := streamLogs_synced H _ (appendedLines ticks) hnd ticks c0 srv [] []
    hticks (by simp) hcap hsync
  obtain ⟨batches, hb, hne, hjoin⟩ := hs1.body
  refine ⟨c1, batches, ?_, ?_, hne, hjoin, hs1.cursor⟩
  · simp [HandleLogs, newSSEConnection, hf, hinit, hrun]
  · rw [hb]
    rfl

theorem session_delivers_appended_lines_witness :
    w0.failure = none ∧ w0.isFlusher = true ∧ srv3.mutex = RWMutex.free ∧ srv3.LogBuf = [] ∧
    (appendedLines [Tick.addLog "x", Tick.poll, Tick.addLog "y"]).Nodup ∧
    ((appendedLines [Tick.addLog "x", Tick.poll, Tick.addLog "y"]).length : Int)
      ≤ srv3.config.MaxLogLines ∧
    ∃ (c : sseConnection) (batches : List (List String)),
      HandleLogs (fun l => l) w0 [Tick.addLog "x", Tick.poll, Tick.addLog "y", Tick.poll] srv3
        = .ret (.ok (false, c)) { srv3 with LogBuf := ["x", "y"] } [] ∧
      c.writer.body =
        [eventFrame "connected" "Connected to log stream",
         eventFrame "status" (getStatusHTML Stopped)] ++
        batches.map (fun b => eventFrame "log" ("\n".intercalate b)) ∧
      (∀ b ∈ batches, b ≠ []) ∧
      batches.flatten = ["x", "y"] ∧
      c.lastLen = 2 :=
  ⟨rfl, rfl, rfl, rfl, by decide, by decide,
    session_delivers_appended_lines (fun l => l) w0 srv3
      [Tick.addLog "x", Tick.poll, Tick.addLog "y"] rfl rfl rfl rfl
      (by simp) (by decide) (fun _ _ _ _ h => h) (by decide)⟩

/-- The session of the example of C8, evaluated: appends of "x" and "y" with a poll
after each deliver a connected event, a status event, a log event with "x" and a
log event with "y". -/
theorem session_x_then_y :
    ∃ c : sseConnection,
      HandleLogs (fun l => l) w0 [Tick.addLog "x", Tick.poll, Tick.addLog "y", Tick.poll] srv3
        = .ret (.ok (false, c)) { srv3 with LogBuf := ["x", "y"] } [] ∧
      c.writer.body =
        [eventFrame "connected" "Connected to log stream",
         eventFrame "status" (getStatusHTML Stopped),
         eventFrame "log" "x", eventFrame "log" "y"] :=
  ⟨_, rfl, by decide⟩

/-! ## The monitor step -/

/-- C13. In every state in which the monitoring task observes the exit of the
process (a process handle is set; mutex free, `MaxLogLines` positive), the monitor
step returns, sets the status to `Stopped`, clears the process handle and the
input stream, leaves the auto-restart flag and the configuration unchanged, and
appends "Server process has stopped" as the newest line of the log buffer, the
oldest line being evicted when the buffer is full; the resulting state does not
depend on the exit error. -/
theorem monitorProcess_finalizes (err : Option String) (s : MinecraftServer)
    (hfree : s.mutex = RWMutex.free) (hcap : 0 < s.config.MaxLogLines)
    (hcmd : s.Command ≠ none) :
    ∃ (s1 : MinecraftServer) (gs : List Goroutine),
      monitorProcess err s = .ret () s1 gs ∧
      monitorProcess none s = .ret () s1 gs ∧
      s1.Status = Stopped ∧ s1.Command = none ∧ s1.stdin = none ∧
      s1.autoRestart = s.autoRestart ∧ s1.config = s.config ∧ s1.mutex = RWMutex.free ∧
      s1.LogBuf = (if (s.LogBuf.length : Int) ≥ s.config.MaxLogLines
                    then s.LogBuf.drop 1 else s.LogBuf) ++ ["Server process has stopped"] ∧
      s1.LogBuf.getLast? = some "Server process has stopped" ∧
      ((s.LogBuf.length : Int) ≤ s.config.MaxLogLines →
        (s1.LogBuf.length : Int) ≤ s.config.MaxLogLines) := by
  refine ⟨_, _, monitorProcess_ret err s hfree hcap hcmd,
    monitorProcess_ret none s hfree hcap hcmd, rfl, rfl, rfl, rfl, rfl, hfree, rfl, ?_, ?_⟩
  · simp
  · intro hle
    by_cases h : (s.LogBuf.length : Int) ≥ s.config.MaxLogLines
    · simp only [if_pos h, List.length_append, List.length_drop, List.length_singleton]
      have h0 : 0 < s.LogBuf.length := by omega
      omega
    · simp only [if_neg h, List.length_append, List.length_singleton]
      push_cast
      omega

theorem monitorProcess_finalizes_witness :
    srv3Auto.mutex = RWMutex.free ∧ 0 < srv3Auto.config.MaxLogLines ∧
    srv3Auto.Command ≠ none ∧
    ∃ (s1 : MinecraftServer) (gs : List Goroutine),
      monitorProcess (some "exit status 1") srv3Auto = .ret () s1 gs ∧
      monitorProcess none srv3Auto = .ret () s1 gs ∧
      s1.Status = Stopped ∧ s1.Command = none ∧ s1.stdin = none ∧
      s1.autoRestart = srv3Auto.autoRestart ∧ s1.config = srv3Auto.config ∧
      s1.mutex = RWMutex.free ∧
      s1.LogBuf = (if (srv3Auto.LogBuf.length : Int) ≥ srv3Auto.config.MaxLogLines
                    then srv3Auto.LogBuf.drop 1 else srv3Auto.LogBuf)
                  ++ ["Server process has stopped"] ∧
      s1.LogBuf.getLast? = some "Server process has stopped" ∧
      ((srv3Auto.LogBuf.length : Int) ≤ srv3Auto.config.MaxLogLines →
        (s1.LogBuf.length : Int) ≤ srv3Auto.config.MaxLogLines) :=
  ⟨rfl, by decide, by decide,
    monitorProcess_finalizes (some "exit status 1") srv3Auto rfl (by decide) (by decide)⟩

/-! ## A session whose cursor has reached the capacity -/

theorem appendLines_bounded (lines : List String) :
    ∀ s : MinecraftServer, s.mutex = RWMutex.free → 0 < s.config.MaxLogLines →
      (s.LogBuf.length : Int) ≤ s.config.MaxLogLines →
      ∃ buf : List String,
        appendLines lines s = .ret () { s with LogBuf := buf } [] ∧
        (buf.length : Int) ≤ s.config.MaxLogLines ∧
        (∀ l, lines.getLast? = some l → buf.getLast? = some l) := by
  induction lines with
  | nil =>
    intro s _ _ hlen
    exact ⟨s.LogBuf, by simp [appendLines], hlen, by simp⟩
  | cons line rest ih =>
    intro s hfree hcap hlen
    have hlen1 : ((((if (s.LogBuf.length : Int) ≥ s.config.MaxLogLines
        then s.LogBuf.drop 1 else s.LogBuf) ++ [line]).length : Nat) : Int)
        ≤ s.config.MaxLogLines := by
      by_cases h : (s.LogBuf.length : Int) ≥ s.config.MaxLogLines
      · simp only [if_pos h, List.length_append, List.length_drop, List.length_singleton]
        have h0 : 0 < s.LogBuf.length := by omega
        omega
      · simp only [if_neg h, List.length_append, List.length_singleton]
        push_cast
        omega
    obtain ⟨buf, hrun, hbound, hlast⟩ := ih
      { s with LogBuf := (if (s.LogBuf.length : Int) ≥ s.config.MaxLogLines
                          then s.LogBuf.drop 1 else s.LogBuf) ++ [line] } hfree hcap hlen1
    refine ⟨buf, ?_, hbound, ?_⟩
    · rw [appendLines, AddLog, addLogLine_ret line s hfree hcap]
      exact hrun
    · intro l hl
      cases rest with
      | nil =>
        simp only [List.getLast?_singleton, Option.some.injEq] at hl
        subst hl
        simp only [appendLines, Outcome.ret.injEq, true_and, and_true] at hrun
        have hb : buf = (if (s.LogBuf.length : Int) ≥ s.config.MaxLogLines
            then s.LogBuf.drop 1 else s.LogBuf) ++ [line] := by
          have := congrArg MinecraftServer.LogBuf hrun
          exact this.symm
        rw [hb]
        simp
      | cons r rest2 =>
        apply hlast
        rw [← hl]
        simp [List.getLast?_cons_cons]

theorem checkNewLogs_full (H : String → String) (c : sseConnection) (srv : MinecraftServer)
    (hmx : srv.mutex.writer = false)
    (hlen : (srv.LogBuf.length : Int) ≤ c.lastLen) :
    checkNewLogs H c srv = .ret (none, c) srv [] := by
  have h : ¬ ((srv.LogBuf.length : Int) > c.lastLen) := by omega
  simp [checkNewLogs, GetLogs_ret srv hmx, h]

theorem processUpdates_full (H : String → String) (c : sseConnection) (srv : MinecraftServer)
    (hmx : srv.mutex.writer = false) (hst : c.status = srv.Status)
    (hlen : (srv.LogBuf.length : Int) ≤ c.lastLen) :
    processUpdates H c srv = .ret (none, c) srv [] := by
  simp [processUpdates, checkStatus, hst, checkNewLogs_full H c srv hmx hlen]

theorem streamLogs_full (H : String → String) (c : sseConnection) (ticks : List Tick) :
    ∀ srv : MinecraftServer,
      (∀ t ∈ ticks, t = Tick.poll ∨ ∃ l, t = Tick.addLog l) →
      srv.mutex = RWMutex.free → 0 < srv.config.MaxLogLines →
      (srv.LogBuf.length : Int) ≤ srv.config.MaxLogLines →
      c.lastLen = srv.config.MaxLogLines → c.status = srv.Status →
      ∃ buf : List String,
        streamLogs H ticks c srv = .ret (false, c) { srv with LogBuf := buf } [] ∧
        (buf.length : Int) ≤ srv.config.MaxLogLines := by
  induction ticks with
  | nil =>
    intro srv _ _ _ hlen _ _
    exact ⟨srv.LogBuf, by simp [streamLogs], hlen⟩
  | cons t rest ih =>
    intro srv hticks hfree hcap hlen hcur hst
    have hrest : ∀ t ∈ rest, t = Tick.poll ∨ ∃ l, t = Tick.addLog l :=
      fun t ht => hticks t (List.mem_cons_of_mem _ ht)
    have hmx : srv.mutex.writer = false := by rw [hfree]; rfl
    rcases hticks t (List.mem_cons_self t rest) with ht | ⟨line, ht⟩
    · subst ht
      obtain ⟨buf, hrun, hbound⟩ := ih srv hrest hfree hcap hlen hcur hst
      refine ⟨buf, ?_, hbound⟩
      simp only [streamLogs, processUpdates_full H c srv hmx hst (by rw [hcur]; exact hlen)]
      exact hrun
    · subst ht
      obtain ⟨buf1, hadd, hb1, _⟩ := appendLines_bounded [line] srv hfree hcap hlen
      have hadd1 : AddLog line srv = .ret () { srv with LogBuf := buf1 } [] := by
        rw [AddLog, addLogLine_ret line srv hfree hcap]
        simp only [appendLines, AddLog, addLogLine_ret line srv hfree hcap] at hadd
        exact hadd
      obtain ⟨buf, hrun, hbound⟩ := ih { srv with LogBuf := buf1 } hrest hfree hcap hb1 hcur hst
      refine ⟨buf, ?_, hbound⟩
      simp only [streamLogs, hadd1]
      exact hrun

/-- C14. Once the cursor of a session equals `MaxLogLines` (positive; buffer within
its capacity, mutex free), then for every sequence of lines appended afterwards
the appends return with the buffer still within its capacity and holding the
newest line, and `checkNewLogs` returns without an error and leaves the session
exactly as it was: no log event is written and the cursor does not move. The same
holds along every interleaving of appends and polls of the streaming loop when the
status last sent is the current one: the session is unchanged at the end. -/
theorem full_cursor_never_advances (H : String → String) (c : sseConnection)
    (srv : MinecraftServer) (hfree : srv.mutex = RWMutex.free)
    (hcap : 0 < srv.config.MaxLogLines)
    (hlen : (srv.LogBuf.length : Int) ≤ srv.config.MaxLogLines)
    (hcur : c.lastLen = srv.config.MaxLogLines) :
    (∀ lines : List String, ∃ buf : List String,
      appendLines lines srv = .ret () { srv with LogBuf := buf } [] ∧
      (buf.length : Int) ≤ srv.config.MaxLogLines ∧
      (∀ l, lines.getLast? = some l → buf.getLast? = some l) ∧
      checkNewLogs H c { srv with LogBuf := buf } = .ret (none, c) { srv with LogBuf := buf } []) ∧
    (∀ ticks : List Tick, (∀ t ∈ ticks, t = Tick.poll ∨ ∃ l, t = Tick.addLog l) →
      c.status = srv.Status →
      ∃ buf : List String,
        streamLogs H ticks c srv = .ret (false, c) { srv with LogBuf := buf } [] ∧
        (buf.length : Int) ≤ srv.config.MaxLogLines) := by
  refine ⟨fun lines => ?_, fun ticks hticks hst => ?_⟩
  · obtain ⟨buf, hrun, hbound, hlast⟩ := appendLines_bounded lines srv hfree hcap hlen
    refine ⟨buf, hrun, hbound, hlast, ?_⟩
    exact checkNewLogs_full H c { srv with LogBuf := buf } (by rw [hfree]; rfl)
      (by rw [hcur]; exact hbound)
  · exact streamLogs_full H c ticks srv hticks hfree hcap hlen hcur hst

theorem full_cursor_never_advances_witness :
    srv3Full.mutex = RWMutex.free ∧ 0 < srv3Full.config.MaxLogLines ∧
    (srv3Full.LogBuf.length : Int) ≤ srv3Full.config.MaxLogLines ∧
    conn3Full.lastLen = srv3Full.config.MaxLogLines ∧
    (∃ buf : List String,
      appendLines ["d"] srv3Full = .ret () { srv3Full with LogBuf := buf } [] ∧
      (buf.length : Int) ≤ srv3Full.config.MaxLogLines ∧
      (∀ l, ["d"].getLast? = some l → buf.getLast? = some l) ∧
      checkNewLogs (fun l => l) conn3Full { srv3Full with LogBuf := buf }
        = .ret (none, conn3Full) { srv3Full with LogBuf := buf } []) ∧
    appendLines ["d"] srv3Full = .ret () { srv3Full with LogBuf := ["b", "c", "d"] } [] :=
  ⟨rfl, by decide, by decide, rfl,
    (full_cursor_never_advances (fun l => l) conn3Full srv3Full rfl (by decide) (by decide)
      rfl).1 ["d"],
    rfl⟩

/-! ## The auto-restart flag -/

theorem Start_frame (env : StartEnv) (s s1 : MinecraftServer) (v : Option String)
    (gs : List Goroutine) (h : Start env s = .ret v s1 gs) :
    s1.autoRestart = s.autoRestart ∧ s1.mutex = s.mutex := by
  obtain ⟨cmd, st, buf, sin, ⟨w, r⟩, cfg, ar⟩ := s
  obtain ⟨e1, e2, e3, e4⟩ := env
  by_cases hl : w = false ∧ r = 0
  · obtain ⟨hw, hr⟩ := hl
    subst hw hr
    by_cases hst : st = Stopped
    · subst hst
      cases e1 <;> cases e2 <;> cases e3 <;> cases e4 <;>
        simp [Start, withLock, Lock, Unlock, validateStartState, initializeProcess,
          setupPipes, handleStartError, startMonitoring] at h <;>
        (obtain ⟨_, h2, _⟩ := h; subst h2; exact ⟨rfl, rfl⟩)
    · simp [Start, withLock, Lock, Unlock, validateStartState, hst] at h
      obtain ⟨_, h2, _⟩ := h
      subst h2
      exact ⟨rfl, rfl⟩
  · simp [Start, withLock, Lock, hl] at h

theorem Stop_frame (writeErr : Option String) (s s1 : MinecraftServer) (v : Option String)
    (gs : List Goroutine) (h : Stop writeErr s = .ret v s1 gs) :
    s1.autoRestart = s.autoRestart ∧ s1.mutex = s.mutex := by
  obtain ⟨cmd, st, buf, sin, ⟨w, r⟩, cfg, ar⟩ := s
  by_cases hl : w = false ∧ r = 0
  · obtain ⟨hw, hr⟩ := hl
    subst hw hr
    by_cases hst : st = Running
    · subst hst
      cases sin <;> cases writeErr <;>
        simp [Stop, withLock, Lock, Unlock, validateStopState, sendStopCommand] at h <;>
        (obtain ⟨_, h2, _⟩ := h; subst h2; exact ⟨rfl, rfl⟩)
    · simp [Stop, withLock, Lock, Unlock, validateStopState, hst] at h
      obtain ⟨_, h2, _⟩ := h
      subst h2
      exact ⟨rfl, rfl⟩
  · simp [Stop, withLock, Lock, hl] at h

theorem ForceStop_frame (killErr : Option String) (s s1 : MinecraftServer)
    (v : Option String) (gs : List Goroutine) (h : ForceStop killErr s = .ret v s1 gs) :
    s1.autoRestart = s.autoRestart ∧ s1.mutex = s.mutex := by
  obtain ⟨cmd, st, buf, sin, ⟨w, r⟩, cfg, ar⟩ := s
  by_cases hl : w = false ∧ r = 0
  · obtain ⟨hw, hr⟩ := hl
    subst hw hr
    by_cases hst : st = Stopped
    · simp [ForceStop, withLock, Lock, Unlock, validateForceStopState, hst] at h
      obtain ⟨_, h2, _⟩ := h
      subst h2
      exact ⟨rfl, rfl⟩
    · cases cmd with
      | none =>
        simp [ForceStop, withLock, Lock, Unlock, validateForceStopState] at h
        obtain ⟨_, h2, _⟩ := h
        subst h2
        exact ⟨rfl, rfl⟩
      | some c =>
        cases hp : c.Process with
        | none => simp [ForceStop, withLock, Lock, Unlock, validateForceStopState, hst, hp] at h
        | some pid =>
          cases killErr <;>
            simp [ForceStop, withLock, Lock, Unlock, validateForceStopState, hst, hp] at h <;>
            (obtain ⟨_, h2, _⟩ := h; subst h2; exact ⟨rfl, rfl⟩)
  · simp [ForceStop, withLock, Lock, hl] at h

theorem ExecuteCommand_frame (command : String) (writeErr : Option String)
    (s s1 : MinecraftServer) (v : Option String) (gs : List Goroutine)
    (h : ExecuteCommand command writeErr s = .ret v s1 gs) : s1 = s := by
  obtain ⟨cmd, st, buf, sin, ⟨w, r⟩, cfg, ar⟩ := s
  cases w with
  | true => simp [ExecuteCommand, withRLock, RLock] at h
  | false =>
    by_cases hst : st = Running
    · subst hst
      cases sin <;> cases writeErr <;>
        simp [ExecuteCommand, withRLock, RLock, RUnlock] at h <;>
        exact h.2.1.symm
    · simp [ExecuteCommand, withRLock, RLock, RUnlock, hst] at h
      exact h.2.1.symm

theorem addLogLine_frame (line : String) (s s1 : MinecraftServer) (gs : List Goroutine)
    (h : addLogLine line s = .ret () s1 gs) :
    s1.autoRestart = s.autoRestart ∧ s1.mutex = s.mutex := by
  obtain ⟨cmd, st, buf, sin, ⟨w, r⟩, cfg, ar⟩ := s
  by_cases hl : w = false ∧ r = 0
  · obtain ⟨hw, hr⟩ := hl
    subst hw hr
    by_cases hfull : (buf.length : Int) ≥ cfg.MaxLogLines
    · cases buf with
      | nil =>
        have hfull1 : cfg.MaxLogLines ≤ 0 := by simpa using hfull
        simp [addLogLine, withLock, Lock, addLogLineLocked, hfull1] at h
      | cons b rest =>
        have hfull1 : cfg.MaxLogLines ≤ (rest.length : Int) + 1 := by simpa using hfull
        simp [addLogLine, withLock, Lock, Unlock, addLogLineLocked, hfull1] at h
        obtain ⟨h2, _⟩ := h
        subst h2
        exact ⟨rfl, rfl⟩
    · have hfull1 : ¬ cfg.MaxLogLines ≤ (buf.length : Int) := by simpa using hfull
      simp [addLogLine, withLock, Lock, Unlock, addLogLineLocked, hfull1] at h
      obtain ⟨h2, _⟩ := h
      subst h2
      exact ⟨rfl, rfl⟩
  · simp [addLogLine, withLock, Lock, hl] at h

theorem monitorProcess_frame (err : Option String) (s s1 : MinecraftServer)
    (gs : List Goroutine) (h : monitorProcess err s = .ret () s1 gs) :
    s1.autoRestart = s.autoRestart ∧ s1.mutex = s.mutex := by
  obtain ⟨cmd, st, buf, sin, ⟨w, r⟩, cfg, ar⟩ := s
  cases cmd with
  | none => simp [monitorProcess] at h
  | some c =>
    by_cases hl : w = false ∧ r = 0
    · obtain ⟨hw, hr⟩ := hl
      subst hw hr
      simp only [monitorProcess, Lock, Unlock, updateServerState, handleProcessExit, AddLog,
        and_self, if_true] at h
      cases hadd : addLogLine "Server process has stopped"
          { Command := none, Status := Stopped, LogBuf := buf, stdin := none,
            mutex := { writer := false, readers := 0 }, config := cfg, autoRestart := ar } with
      | ret v s2 gs2 =>
        have hf := addLogLine_frame _ _ _ _ hadd
        simp [hadd] at h
        obtain ⟨h2, _⟩ := h
        subst h2
        exact hf
      | blocked s2 => simp [hadd] at h
      | panic msg => simp [hadd] at h
      | polling s2 => simp [hadd] at h
    · simp [monitorProcess, Lock, hl] at h

theorem discard_ret {α : Type} (o : Outcome α) (s1 : MinecraftServer) (gs : List Goroutine)
    (h : o.discard = .ret () s1 gs) : ∃ v, o = .ret v s1 gs := by
  cases o with
  | ret v s2 gs2 =>
    simp only [Outcome.discard, Outcome.ret.injEq, true_and] at h
    exact ⟨v, by rw [h.1, h.2]⟩
  | blocked s2 => simp [Outcome.discard] at h
  | panic msg => simp [Outcome.discard] at h
  | polling s2 => simp [Outcome.discard] at h

theorem Op_run_frame (op : Op) (s s1 : MinecraftServer) (gs : List Goroutine)
    (h : op.run s = .ret () s1 gs) :
    s1.autoRestart = s.autoRestart ∧ s1.mutex = s.mutex := by
  cases op with
  | start env =>
    obtain ⟨v, hv⟩ := discard_ret _ _ _ h
    exact Start_frame env s s1 v gs hv
  | stop writeErr =>
    obtain ⟨v, hv⟩ := discard_ret _ _ _ h
    exact Stop_frame writeErr s s1 v gs hv
  | forceStop killErr =>
    obtain ⟨v, hv⟩ := discard_ret _ _ _ h
    exact ForceStop_frame killErr s s1 v gs hv
  | executeCommand command writeErr =>
    obtain ⟨v, hv⟩ := discard_ret _ _ _ h
    rw [ExecuteCommand_frame command writeErr s s1 v gs hv]
    exact ⟨rfl, rfl⟩
  | addLog line => exact addLogLine_frame line s s1 gs h
  | processExit err => exact monitorProcess_frame err s s1 gs h

theorem runOps_frame (ops : List Op) :
    ∀ (s s1 : MinecraftServer) (gs : List Goroutine), runOps ops s = .ret () s1 gs →
      s1.autoRestart = s.autoRestart ∧ s1.mutex = s.mutex := by
  induction ops with
  | nil =>
    intro s s1 gs h
    simp only [runOps, Outcome.ret.injEq, true_and] at h
    rw [← h.1]
    exact ⟨rfl, rfl⟩
  | cons op rest ih =>
    intro s s1 gs h
    rw [runOps] at h
    cases hop : op.run s with
    | ret v s2 gs2 =>
      have hf := Op_run_frame op s s2 gs2 hop
      rw [hop] at h
      simp only at h
      cases hrest : runOps rest s2 with
      | ret v3 s3 gs3 =>
        rw [hrest] at h
        simp only [Outcome.ret.injEq, true_and] at h
        have hf2 := ih s2 s3 gs3 hrest
        rw [← h.1, hf2.1, hf2.2]
        exact hf
      | blocked s3 => rw [hrest] at h; simp at h
      | panic msg => rw [hrest] at h; simp at h
      | polling s3 => rw [hrest] at h; simp at h
    | blocked s2 => rw [hop] at h; simp at h
    | panic msg => rw [hop] at h; simp at h
    | polling s2 => rw [hop] at h; simp at h

theorem GetAutoRestart_ret (s : MinecraftServer) (hw : s.mutex.writer = false) :
    GetAutoRestart s = .ret s.autoRestart s [] := by
  obtain ⟨cmd, st, buf, sin, ⟨w, r⟩, cfg, ar⟩ := s
  simp only at hw
  subst hw
  simp [GetAutoRestart, withRLock, RLock, RUnlock]

theorem Op_run_wellFormed (op : Op) (s : MinecraftServer) (hwf : WellFormed s)
    (hen : op.enabled s = true) :
    ∃ (s1 : MinecraftServer) (gs : List Goroutine),
      op.run s = .ret () s1 gs ∧ WellFormed s1 := by
  obtain ⟨hfree, hcap, halive⟩ := hwf
  obtain ⟨cmd, st, buf, sin, mtx, cfg, ar⟩ := s
  simp only at hfree hcap halive
  subst hfree
  cases op with
  | start env =>
    obtain ⟨e1, e2, e3, e4⟩ := env
    by_cases hst : st = Stopped
    · subst hst
      cases e1 <;> cases e2 <;> cases e3 <;> cases e4 <;>
        simp [Op.run, Outcome.discard, Start, withLock, Lock, Unlock, RWMutex.free,
          validateStartState, initializeProcess, setupPipes, handleStartError,
          startMonitoring] <;>
        exact ⟨rfl, hcap, by simp [processAlive]⟩
    · refine ⟨
      { Command := cmd, Status := st, LogBuf := buf, stdin := sin,
        mutex := RWMutex.free, config := cfg, autoRestart := ar }, [], ?_, ⟨rfl, hcap, halive⟩⟩
      simp [Op.run, Outcome.discard, Start, withLock, Lock, Unlock, RWMutex.free,
        validateStartState, hst]
  | stop writeErr =>
    by_cases hst : st = Running
    · subst hst
      have hal : processAlive
          { Command := cmd, Status := Running, LogBuf := buf, stdin := sin,
            mutex := RWMutex.free, config := cfg, autoRestart := ar } = true :=
        halive (by decide)
      cases sin <;> cases writeErr <;>
        simp [Op.run, Outcome.discard, Stop, withLock, Lock, Unlock, RWMutex.free,
          validateStopState, sendStopCommand] <;>
        exact ⟨rfl, hcap, fun _ => hal⟩
    · refine ⟨
      { Command := cmd, Status := st, LogBuf := buf, stdin := sin,
        mutex := RWMutex.free, config := cfg, autoRestart := ar }, [], ?_, ⟨rfl, hcap, halive⟩⟩
      simp [Op.run, Outcome.discard, Stop, withLock, Lock, Unlock, RWMutex.free,
        validateStopState, hst]
  | forceStop killErr =>
    by_cases hst : st = Stopped
    · refine ⟨
      { Command := cmd, Status := st, LogBuf := buf, stdin := sin,
        mutex := RWMutex.free, config := cfg, autoRestart := ar }, [], ?_, ⟨rfl, hcap, halive⟩⟩
      simp [Op.run, Outcome.discard, ForceStop, withLock, Lock, Unlock, RWMutex.free,
        validateForceStopState, hst]
    · have hal := halive hst
      cases cmd with
      | none => simp [processAlive] at hal
      | some c =>
        cases hp : c.Process with
        | none => simp [processAlive, hp] at hal
        | some pid =>
          cases killErr <;>
            simp [Op.run, Outcome.discard, ForceStop, withLock, Lock, Unlock, RWMutex.free,
              validateForceStopState, hst, hp] <;>
            exact ⟨rfl, hcap, fun _ => hal⟩
  | executeCommand command writeErr =>
    refine ⟨
      { Command := cmd, Status := st, LogBuf := buf, stdin := sin,
        mutex := RWMutex.free, config := cfg, autoRestart := ar }, [], ?_, ⟨rfl, hcap, halive⟩⟩
    by_cases hst : st = Running
    · subst hst
      cases sin <;> cases writeErr <;>
        simp [Op.run, Outcome.discard, ExecuteCommand, withRLock, RLock, RUnlock, RWMutex.free]
    · simp [Op.run, Outcome.discard, ExecuteCommand, withRLock, RLock, RUnlock, RWMutex.free,
        hst]
  | addLog line =>
    exact ⟨_, [], addLogLine_ret line 
      { Command := cmd, Status := st, LogBuf := buf, stdin := sin,
        mutex := RWMutex.free, config := cfg, autoRestart := ar } rfl hcap, ⟨rfl, hcap, halive⟩⟩
  | processExit err =>
    have hcmd : cmd ≠ none := by
      intro hc
      subst hc
      simp [Op.enabled, processAlive] at hen
    refine ⟨_, _, monitorProcess_ret err 
      { Command := cmd, Status := st, LogBuf := buf, stdin := sin,
        mutex := RWMutex.free, config := cfg, autoRestart := ar } rfl hcap hcmd, ⟨rfl, hcap, ?_⟩⟩
    intro hne
    exact absurd rfl hne

theorem runOps_wellFormed (ops : List Op) :
    ∀ s : MinecraftServer, WellFormed s → Feasible ops s →
      ∃ (s1 : MinecraftServer) (gs : List Goroutine),
        runOps ops s = .ret () s1 gs ∧ WellFormed s1 := by
  induction ops with
  | nil =>
    intro s hwf _
    exact ⟨s, [], rfl, hwf⟩
  | cons op rest ih =>
    intro s hwf hfeas
    obtain ⟨hen, hnext⟩ := hfeas
    obtain ⟨s1, gs, hrun, hwf1⟩ := Op_run_wellFormed op s hwf hen
    obtain ⟨s2, gs2, hrun2, hwf2⟩ := ih s1 hwf1 (hnext s1 gs hrun)
    refine ⟨s2, gs ++ gs2, ?_, hwf2⟩
    simp [runOps, hrun, hrun2]

theorem Feasible_cons (op : Op) (rest : List Op) (s s1 : MinecraftServer)
    (gs : List Goroutine) (hen : op.enabled s = true) (hrun : op.run s = .ret () s1 gs)
    (hrest : Feasible rest s1) : Feasible (op :: rest) s := by
  refine ⟨hen, fun s2 gs2 h => ?_⟩
  rw [hrun] at h
  simp only [Outcome.ret.injEq, true_and] at h
  rw [← h.1]
  exact hrest

theorem opsDay_feasible : Feasible opsDay { srv3 with autoRestart := true } :=
  Feasible_cons _ _ _ _ _ rfl rfl
    (Feasible_cons _ _ _ _ _ rfl rfl
      (Feasible_cons _ _ _ _ _ rfl rfl
        (Feasible_cons _ _ _ _ _ rfl rfl
          (Feasible_cons _ _ _ _ _ rfl rfl
            (Feasible_cons _ _ _ _ _ rfl rfl
              (Feasible_cons _ _ _ _ _ rfl rfl trivial))))))

/-- C11. On a free mutex `ToggleAutoRestart` returns the negation of the flag and
stores it, changing no other field, and a second toggle gives back the original
value and the original state. `GetAutoRestart` returns the value of the last
toggle after every sequence of `Start`, `Stop`, `ForceStop`, `ExecuteCommand`,
`AddLog` and monitor process-exit steps that took place in between; from a
well-formed state every such sequence whose process-exit steps occur while a
process is alive does take place (each call returns). -/
theorem autoRestart_toggle (s : MinecraftServer) (hfree : s.mutex = RWMutex.free) :
    ToggleAutoRestart s
      = .ret (!s.autoRestart) { s with autoRestart := !s.autoRestart } [] ∧
    ToggleAutoRestart { s with autoRestart := !s.autoRestart } = .ret s.autoRestart s [] ∧
    GetAutoRestart { s with autoRestart := !s.autoRestart }
      = .ret (!s.autoRestart) { s with autoRestart := !s.autoRestart } [] ∧
    (∀ (ops : List Op) (s2 : MinecraftServer) (gs : List Goroutine),
      runOps ops { s with autoRestart := !s.autoRestart } = .ret () s2 gs →
        GetAutoRestart s2 = .ret (!s.autoRestart) s2 []) ∧
    (WellFormed s → ∀ ops : List Op, Feasible ops { s with autoRestart := !s.autoRestart } →
      ∃ (s2 : MinecraftServer) (gs : List Goroutine),
        runOps ops { s with autoRestart := !s.autoRestart } = .ret () s2 gs ∧
        GetAutoRestart s2 = .ret (!s.autoRestart) s2 []) := by
  have hget : ∀ (ops : List Op) (s2 : MinecraftServer) (gs : List Goroutine),
      runOps ops { s with autoRestart := !s.autoRestart } = .ret () s2 gs →
        GetAutoRestart s2 = .ret (!s.autoRestart) s2 [] := by
    intro ops s2 gs hrun
    obtain ⟨hflag, hmx⟩ := runOps_frame ops _ s2 gs hrun
    have hw : s2.mutex.writer = false := by
      rw [hmx]
      simp only
      rw [hfree]
      rfl
    rw [GetAutoRestart_ret s2 hw, hflag]
  refine ⟨?_, ?_, ?_, hget, ?_⟩
  · obtain ⟨cmd, st, buf, sin, mtx, cfg, ar⟩ := s
    simp only at hfree
    subst hfree
    simp [ToggleAutoRestart, withLock, Lock, Unlock, RWMutex.free]
  · obtain ⟨cmd, st, buf, sin, mtx, cfg, ar⟩ := s
    simp only at hfree
    subst hfree
    simp [ToggleAutoRestart, withLock, Lock, Unlock, RWMutex.free]
  · exact hget [] _ [] rfl
  · intro hwf ops hfeas
    have hwf1 : WellFormed { s with autoRestart := !s.autoRestart } :=
      ⟨hwf.free, hwf.capacity, hwf.alive⟩
    obtain ⟨s2, gs, hrun, _⟩ := runOps_wellFormed ops _ hwf1 hfeas
    exact ⟨s2, gs, hrun, hget ops s2 gs hrun⟩

theorem autoRestart_toggle_witness :
    srv3.mutex = RWMutex.free ∧
    ToggleAutoRestart srv3 = .ret true { srv3 with autoRestart := true } [] ∧
    ToggleAutoRestart { srv3 with autoRestart := true } = .ret false srv3 [] ∧
    runOps opsDay { srv3 with autoRestart := true }
      = .ret ()
          { srv3 with
            autoRestart := true
            Command := some (buildJavaCommand srv3)
            LogBuf := ["Done (3.2s)!", "Server process has stopped"] }
          [.handleLogs { fd := 4 }, .handleLogs { fd := 5 }, .monitorProcess,
           .handleLogs { fd := 4 }, .handleLogs { fd := 5 }] ∧
    GetAutoRestart
        { srv3 with
          autoRestart := true
          Command := some (buildJavaCommand srv3)
          LogBuf := ["Done (3.2s)!", "Server process has stopped"] }
      = .ret true
          { srv3 with
            autoRestart := true
            Command := some (buildJavaCommand srv3)
            LogBuf := ["Done (3.2s)!", "Server process has stopped"] } [] ∧
    WellFormed srv3 ∧ Feasible opsDay { srv3 with autoRestart := true } ∧
    ∃ (s2 : MinecraftServer) (gs : List Goroutine),
      runOps opsDay { srv3 with autoRestart := true } = .ret () s2 gs ∧
      GetAutoRestart s2 = .ret true s2 [] :=
  have h := autoRestart_toggle srv3 rfl
  ⟨rfl, h.1, h.2.1, rfl, h.2.2.2.1 opsDay _ _ rfl,
    ⟨rfl, by decide, fun hne => absurd rfl hne⟩, opsDay_feasible,
    h.2.2.2.2 ⟨rfl, by decide, fun hne => absurd rfl hne⟩ opsDay opsDay_feasible⟩

/-! ## The fingerprint filter -/

theorem keepUnseen_sublist (H : String → String) (logs : List String) :
    ∀ seen : List String, (keepUnseen H seen logs).Sublist logs := by
  induction logs with
  | nil => intro seen; simp [keepUnseen]
  | cons l rest ih =>
    intro seen
    by_cases h : H l ∈ seen
    · simp only [keepUnseen, if_pos h]
      exact (ih seen).cons l
    · simp only [keepUnseen, if_neg h]
      exact (ih (H l :: seen)).cons₂ l

theorem keepUnseen_unseen (H : String → String) (logs : List String) :
    ∀ seen : List String,
      ((keepUnseen H seen logs).map H).Nodup ∧ ∀ l ∈ keepUnseen H seen logs, H l ∉ seen := by
  induction logs with
  | nil => intro seen; simp [keepUnseen]
  | cons l rest ih =>
    intro seen
    by_cases h : H l ∈ seen
    · simp only [keepUnseen, if_pos h]
      exact ih seen
    · simp only [keepUnseen, if_neg h]
      obtain ⟨hnd, hout⟩ := ih (H l :: seen)
      refine ⟨?_, ?_⟩
      · rw [List.map_cons, List.nodup_cons]
        refine ⟨?_, hnd⟩
        intro hmem
        obtain ⟨x, hx, hxl⟩ := List.mem_map.mp hmem
        exact hout x hx (by rw [hxl]; exact List.mem_cons_self _ _)
      · intro x hx
        rcases List.mem_cons.mp hx with heq | hin
        · rw [heq]; exact h
        · exact fun hmem => hout x hin (List.mem_cons_of_mem _ hmem)

theorem keepUnseen_covers (H : String → String) (logs : List String) :
    ∀ seen : List String, ∀ l ∈ logs, H l ∈ seen ∨ H l ∈ (keepUnseen H seen logs).map H := by
  induction logs with
  | nil => intro seen l hl; simp at hl
  | cons a rest ih =>
    intro seen l hl
    by_cases h : H a ∈ seen
    · simp only [keepUnseen, if_pos h]
      rcases List.mem_cons.mp hl with heq | hin
      · left; rw [heq]; exact h
      · exact ih seen l hin
    · simp only [keepUnseen, if_neg h, List.map_cons, List.mem_cons]
      rcases List.mem_cons.mp hl with heq | hin
      · right; left; rw [heq]
      · rcases ih (H a :: seen) l hin with h1 | h1
        · rcases List.mem_cons.mp h1 with h2 | h2
          · right; left; exact h2
          · left; exact h2
        · right; right; exact h1

theorem keepUnseen_positions (H : String → String) (seen rest : List String) :
    ∀ (pre seen1 : List String), (∀ h, h ∈ seen1 ↔ h ∈ seen ∨ h ∈ pre.map H) →
      keepUnseen H seen1 rest
        = ((rest.enumFrom pre.length).filter
            (fun p => decide (H p.2 ∉ seen ∧ H p.2 ∉ ((pre ++ rest).take p.1).map H))).map
            Prod.snd := by
  induction rest with
  | nil => intro pre seen1 _; simp [keepUnseen]
  | cons l rest ih =>
    intro pre seen1 hseen
    have hpre : (pre ++ l :: rest).take pre.length = pre := by simp
    have hstep : pre ++ l :: rest = (pre ++ [l]) ++ rest := by simp
    have hlen : pre.length + 1 = (pre ++ [l]).length := by simp
    rw [List.enumFrom_cons, List.filter_cons]
    by_cases h : H l ∈ seen1
    · have hp : ¬ (H l ∉ seen ∧ H l ∉ pre.map H) := by
        intro hc
        rcases (hseen (H l)).mp h with h1 | h1
        · exact hc.1 h1
        · exact hc.2 h1
      simp only [keepUnseen, if_pos h, hpre, hp, decide_False, Bool.false_eq_true, if_false]
      rw [hstep, hlen]
      apply ih (pre ++ [l]) seen1
      intro x
      rw [hseen x, List.map_append, List.mem_append]
      constructor
      · rintro (h1 | h1)
        · exact Or.inl h1
        · exact Or.inr (Or.inl h1)
      · rintro (h1 | h1 | h1)
        · exact Or.inl h1
        · exact Or.inr h1
        · simp only [List.map_cons, List.map_nil, List.mem_singleton] at h1
          rw [h1]
          exact (hseen (H l)).mp h
    · have hp : H l ∉ seen ∧ H l ∉ pre.map H :=
        ⟨fun h1 => h ((hseen _).mpr (Or.inl h1)), fun h1 => h ((hseen _).mpr (Or.inr h1))⟩
      simp only [keepUnseen, if_neg h, hpre, hp, not_false_eq_true, and_self, decide_True,
        if_true, List.map_cons]
      rw [hstep, hlen]
      congr 1
      apply ih (pre ++ [l]) (H l :: seen1)
      intro x
      rw [List.mem_cons, hseen x, List.map_append, List.mem_append]
      simp only [List.map_cons, List.map_nil, List.mem_singleton]
      tauto

/-! ## Sessions never deliver a line twice -/

theorem sendEvent_noRepeat (H : String → String) (base : List String) (event data : String)
    (c : sseConnection) (hinv : NoRepeat H base c) (hev : (event == "log") = false) :
    ∃ c1, sendEvent event data c = (none, c1) ∧ NoRepeat H base c1 ∧
      c1.lastLen = c.lastLen ∧ c1.seenLogs = c.seenLogs ∧ c1.status = c.status ∧
      c1.config = c.config := by
  obtain ⟨hh, hcur, evs, batches, hbody, hlog, hnd, hseen⟩ := hinv
  refine ⟨{ c with writer := { c.writer with
      body := c.writer.body ++ [eventFrame event data]
      flushes := c.writer.flushes + 1 } }, by simp [sendEvent, hh],
    ⟨hh, hcur, evs ++ [(event, data)], batches, ?_, ?_, hnd, hseen⟩, rfl, rfl, rfl, rfl⟩
  · simp [hbody]
  · simp [List.filter_append, hev, hlog]

theorem checkStatus_noRepeat (H : String → String) (base : List String) (c : sseConnection)
    (srv : MinecraftServer) (hinv : NoRepeat H base c) :
    ∃ c1, checkStatus c srv = (none, c1) ∧ NoRepeat H base c1 := by
  by_cases hst : srv.Status = c.status
  · exact ⟨c, by simp [checkStatus, hst], hinv⟩
  · obtain ⟨c1, hsend, hinv1, hl, hs, _, _⟩ :=
      sendEvent_noRepeat H base "status" (getStatusHTML srv.Status) c hinv (by decide)
    refine ⟨{ c1 with status := srv.Status }, by simp [checkStatus, hst, hsend], ?_⟩
    exact ⟨hinv1.healthy, hinv1.cursor, hinv1.events⟩

theorem checkNewLogs_noRepeat (H : String → String) (base : List String) (c : sseConnection)
    (srv : MinecraftServer) (hinv : NoRepeat H base c) (hmx : srv.mutex.writer = false) :
    ∃ c1, checkNewLogs H c srv = .ret (none, c1) srv [] ∧ NoRepeat H base c1 := by
  by_cases hgt : (srv.LogBuf.length : Int) > c.lastLen
  · obtain ⟨hh, hcur, evs, batches, hbody, hlog, hnd, hseen⟩ := hinv
    have hneg : ¬ c.lastLen < 0 := by omega
    obtain ⟨hknd, hkout⟩ := keepUnseen_unseen H (srv.LogBuf.drop c.lastLen.toNat) c.seenLogs
    have hlen0 : (0 : Int) ≤ (srv.LogBuf.length : Int) := Int.natCast_nonneg _
    by_cases hk : keepUnseen H c.seenLogs (srv.LogBuf.drop c.lastLen.toNat) = []
    · refine ⟨{ c with lastLen := (srv.LogBuf.length : Int) }, ?_, ⟨hh, hlen0, evs, batches,
        hbody, hlog, hnd, hseen⟩⟩
      simp [checkNewLogs, GetLogs_ret srv hmx, hgt, hneg, processNewLogs, processLoop_eq, hk]
    · have hpos : 0 < (keepUnseen H c.seenLogs (srv.LogBuf.drop c.lastLen.toNat)).length :=
        List.length_pos.mpr hk
      have hne0 : (keepUnseen H c.seenLogs (srv.LogBuf.drop c.lastLen.toNat)).length ≠ 0 := by
        omega
      refine ⟨{ c with
          writer := { c.writer with
            body := c.writer.body ++ [eventFrame "log" ("\n".intercalate
              (keepUnseen H c.seenLogs (srv.LogBuf.drop c.lastLen.toNat)))]
            flushes := c.writer.flushes + 1 }
          seenLogs := ((keepUnseen H c.seenLogs (srv.LogBuf.drop c.lastLen.toNat)).map
            H).reverse ++ c.seenLogs
          lastLen := (srv.LogBuf.length : Int) }, ?_, ⟨hh, hlen0,
            evs ++ [("log", "\n".intercalate
              (keepUnseen H c.seenLogs (srv.LogBuf.drop c.lastLen.toNat)))],
            batches ++ [keepUnseen H c.seenLogs (srv.LogBuf.drop c.lastLen.toNat)],
            ?_, ?_, ?_, ?_⟩⟩
      · simp [checkNewLogs, GetLogs_ret srv hmx, hgt, hneg, processNewLogs, processLoop_eq,
          hk, hpos, hne0, sendLogBatch, sendEvent, hh, writeLines_eq_intercalate]
      · simp [hbody]
      · simp [List.filter_append, hlog]
      · rw [List.flatten_append, List.map_append, List.nodup_append]
        refine ⟨hnd, by simpa using hknd, ?_⟩
        intro h h1 h2
        obtain ⟨x, hx, hxh⟩ := List.mem_map.mp h1
        obtain ⟨y, hy, hyh⟩ := List.mem_map.mp h2
        simp only [List.flatten_cons, List.flatten_nil, List.append_nil] at hy
        exact hkout y hy (by rw [hyh, ← hxh]; exact hseen x hx)
      · intro l hl
        rw [List.flatten_append, List.mem_append] at hl
        simp only [List.mem_append, List.mem_reverse]
        rcases hl with h1 | h1
        · exact Or.inr (hseen l h1)
        · simp only [List.flatten_cons, List.flatten_nil, List.append_nil] at h1
          exact Or.inl (List.mem_map_of_mem H h1)
  · exact ⟨c, by simp [checkNewLogs, GetLogs_ret srv hmx, hgt], hinv⟩

theorem processUpdates_noRepeat (H : String → String) (base : List String)
    (c : sseConnection) (srv : MinecraftServer) (hinv : NoRepeat H base c)
    (hmx : srv.mutex.writer = false) :
    ∃ c1, processUpdates H c srv = .ret (none, c1) srv [] ∧ NoRepeat H base c1 := by
  obtain ⟨c1, hst, hinv1⟩ := checkStatus_noRepeat H base c srv hinv
  obtain ⟨c2, hlogs, hinv2⟩ := checkNewLogs_noRepeat H base c1 srv hinv1 hmx
  exact ⟨c2, by simp [processUpdates, hst, hlogs], hinv2⟩

theorem initialize_noRepeat (H : String → String) (c : sseConnection) (srv : MinecraftServer)
    (hw : c.writer.failure = none) (hmx : srv.mutex.writer = false) (hseen : c.seenLogs = []) :
    ∃ c1, sseConnection.initialize H c srv = .ret (none, c1) srv [] ∧
      NoRepeat H c.writer.body c1 := by
  obtain ⟨c1, hrun, hlast, _, hfail, hs, hbody⟩ := initialize_ret H c srv hw hmx hseen
  obtain ⟨hknd, _⟩ := keepUnseen_unseen H srv.LogBuf []
  refine ⟨c1, hrun, ⟨hfail, by rw [hlast]; exact Int.natCast_nonneg _, ?_⟩⟩
  by_cases hbuf : srv.LogBuf = []
  · refine ⟨[("connected", "Connected to log stream"), ("status", getStatusHTML srv.Status)],
      [], ?_, by simp [List.filter_cons], by simp, by simp⟩
    rw [hbody, if_pos hbuf]
    simp
  · refine ⟨[("connected", "Connected to log stream"), ("status", getStatusHTML srv.Status),
      ("log", "\n".intercalate (keepUnseen H [] srv.LogBuf))],
      [keepUnseen H [] srv.LogBuf], ?_, ?_, by simpa using hknd, ?_⟩
    · rw [hbody, if_neg hbuf]
      simp
    · simp [List.filter_cons]
    · intro l hl
      rw [hs]
      simp only [List.flatten_cons, List.flatten_nil, List.append_nil] at hl
      exact List.mem_reverse.mpr (List.mem_map_of_mem H hl)

theorem streamLogs_noRepeat (H : String → String) (base : List String) (ticks : List Tick) :
    ∀ (c : sseConnection) (srv : MinecraftServer), NoRepeat H base c →
      srv.mutex = RWMutex.free → 0 < srv.config.MaxLogLines →
      ∃ (fin : Bool) (c1 : sseConnection) (srv1 : MinecraftServer),
        streamLogs H ticks c srv = .ret (fin, c1) srv1 [] ∧ NoRepeat H base c1 := by
  induction ticks with
  | nil => intro c srv hinv _ _; exact ⟨false, c, srv, rfl, hinv⟩
  | cons t rest ih =>
    intro c srv hinv hfree hcap
    have hmx : srv.mutex.writer = false := by rw [hfree]; rfl
    cases t with
    | done => exact ⟨true, c, srv, rfl, hinv⟩
    | heartbeat =>
      obtain ⟨c1, hsend, hinv1, _⟩ :=
        sendEvent_noRepeat H base "heartbeat" "ping" c hinv (by decide)
      obtain ⟨fin, c2, srv2, hrun, hinv2⟩ := ih c1 srv hinv1 hfree hcap
      exact ⟨fin, c2, srv2, by simp only [streamLogs, hsend]; exact hrun, hinv2⟩
    | poll =>
      obtain ⟨c1, hpoll, hinv1⟩ := processUpdates_noRepeat H base c srv hinv hmx
      obtain ⟨fin, c2, srv2, hrun, hinv2⟩ := ih c1 srv hinv1 hfree hcap
      exact ⟨fin, c2, srv2, by simp only [streamLogs, hpoll]; exact hrun, hinv2⟩
    | addLog line =>
      have hadd := addLogLine_ret line srv hfree hcap
      obtain ⟨fin, c2, srv2, hrun, hinv2⟩ := ih c
        { srv with LogBuf := (if (srv.LogBuf.length : Int) ≥ srv.config.MaxLogLines
                              then srv.LogBuf.drop 1 else srv.LogBuf) ++ [line] }
        hinv hfree hcap
      exact ⟨fin, c2, srv2, by simp only [streamLogs, AddLog, hadd]; exact hrun, hinv2⟩

theorem HandleLogs_noRepeat (H : String → String) (w : ResponseWriter) (ticks : List Tick)
    (srv : MinecraftServer) (hw : w.failure = none) (hf : w.isFlusher = true)
    (hfree : srv.mutex = RWMutex.free) (hcap : 0 < srv.config.MaxLogLines) :
    ∃ (fin : Bool) (c : sseConnection) (srv1 : MinecraftServer),
      HandleLogs H w ticks srv = .ret (.ok (fin, c)) srv1 [] ∧ NoRepeat H w.body c := by
  have hfields := setSSEHeaders_fields w
  have hmx : srv.mutex.writer = false := by rw [hfree]; rfl
  obtain ⟨c0, hinit, hinv0⟩ :=
    initialize_noRepeat H
      { writer := setSSEHeaders w, seenLogs := [], lastLen := 0, status := 0,
        config := DefaultSSEConfig } srv (by rw [hfields.2.1, hw]) hmx rfl
  simp only [hfields.1] at hinv0
  obtain ⟨fin, c1, srv1, hrun, hinv1⟩ := streamLogs_noRepeat H w.body ticks c0 srv hinv0 hfree hcap
  exact ⟨fin, c1, srv1, by simp [HandleLogs, newSSEConnection, hf, hinit, hrun], hinv1⟩

/-- C12. For every session state and every batch, `processNewLogs` returns, in
their original order, exactly the lines of the batch whose fingerprint is neither in
the set of the session nor the fingerprint of an earlier line of the batch, and
changes only the set, which afterwards holds its former fingerprints and that of
every line of the batch. Hence no two returned lines have the same fingerprint, a
line of the batch is never returned by a later call of the session, and along every
schedule of a session (writer healthy, mutex free, positive capacity) no line is
carried twice by the log events written. -/
theorem processNewLogs_filters (H : String → String) :
    (∀ (c : sseConnection) (logs : List String),
      (processNewLogs H logs c).1
        = ((logs.enum.filter fun p =>
            decide (H p.2 ∉ c.seenLogs ∧ H p.2 ∉ (logs.take p.1).map H)).map Prod.snd) ∧
      (processNewLogs H logs c).1 = keepUnseen H c.seenLogs logs ∧
      (processNewLogs H logs c).1.Sublist logs ∧
      (processNewLogs H logs c).2
        = { c with seenLogs := (processNewLogs H logs c).2.seenLogs } ∧
      (∀ l ∈ logs, H l ∈ (processNewLogs H logs c).2.seenLogs) ∧
      (∀ h ∈ c.seenLogs, h ∈ (processNewLogs H logs c).2.seenLogs) ∧
      ((processNewLogs H logs c).1.map H).Nodup ∧
      (processNewLogs H logs c).1.Nodup ∧
      (∀ (c2 : sseConnection) (logs2 : List String),
        (∀ h ∈ (processNewLogs H logs c).2.seenLogs, h ∈ c2.seenLogs) →
          ∀ l ∈ logs, l ∉ (processNewLogs H logs2 c2).1)) ∧
    (∀ (w : ResponseWriter) (ticks : List Tick) (srv : MinecraftServer),
      w.failure = none → w.isFlusher = true → srv.mutex = RWMutex.free →
      0 < srv.config.MaxLogLines →
      ∃ (fin : Bool) (c : sseConnection) (srv1 : MinecraftServer)
        (evs : List (String × String)) (batches : List (List String)),
        HandleLogs H w ticks srv = .ret (.ok (fin, c)) srv1 [] ∧
        c.writer.body = w.body ++ evs.map (fun e => eventFrame e.1 e.2) ∧
        (evs.filter (fun e => e.1 == "log")).map Prod.snd
          = batches.map (fun b => "\n".intercalate b) ∧
        (batches.flatten.map H).Nodup ∧ batches.flatten.Nodup) := by
  refine ⟨fun c logs => ?_, fun w ticks srv hw hf hfree hcap => ?_⟩
  · have hkeep : (processNewLogs H logs c).1 = keepUnseen H c.seenLogs logs := by
      simp [processNewLogs, processLoop_eq]
    have hseen : (processNewLogs H logs c).2.seenLogs
        = ((keepUnseen H c.seenLogs logs).map H).reverse ++ c.seenLogs := by
      simp [processNewLogs, processLoop_eq]
    obtain ⟨hnd, hout⟩ := keepUnseen_unseen H logs c.seenLogs
    have hcover : ∀ l ∈ logs, H l ∈ (processNewLogs H logs c).2.seenLogs := by
      intro l hl
      rw [hseen, List.mem_append, List.mem_reverse]
      exact (keepUnseen_covers H logs c.seenLogs l hl).symm
    refine ⟨?_, hkeep, ?_, rfl, hcover, ?_, ?_, ?_, ?_⟩
    · rw [hkeep]
      have h := keepUnseen_positions H c.seenLogs logs [] c.seenLogs (by simp)
      simpa [List.enum] using h
    · rw [hkeep]; exact keepUnseen_sublist H logs c.seenLogs
    · intro h hh
      rw [hseen]
      exact List.mem_append_right _ hh
    · rw [hkeep]; exact hnd
    · rw [hkeep]; exact List.Nodup.of_map H hnd
    · intro c2 logs2 hsub l hl hmem
      have hk2 : (processNewLogs H logs2 c2).1 = keepUnseen H c2.seenLogs logs2 := by
        simp [processNewLogs, processLoop_eq]
      rw [hk2] at hmem
      exact (keepUnseen_unseen H logs2 c2.seenLogs).2 l hmem (hsub _ (hcover l hl))
  · obtain ⟨fin, c, srv1, hrun, hinv⟩ := HandleLogs_noRepeat H w ticks srv hw hf hfree hcap
    obtain ⟨evs, batches, hbody, hlog, hnd, _⟩ := hinv.events
    exact ⟨fin, c, srv1, evs, batches, hrun, hbody, hlog, hnd, List.Nodup.of_map H hnd⟩

/-- The example of C12, evaluated with the identity as fingerprint: "x" is
appended and delivered, "x" is appended a second time, and the next poll moves the
cursor to 2 without writing a log event. -/
theorem processNewLogs_filters_witness :
    (processNewLogs (fun l => l) ["a", "b", "a", "c", "b"]
        { conn3Full with seenLogs := ["c"] }).1 = ["a", "b"] ∧
    (∃ c : sseConnection,
      HandleLogs (fun l => l) w0 [Tick.addLog "x", Tick.poll, Tick.addLog "x", Tick.poll] srv3
        = .ret (.ok (false, c)) { srv3 with LogBuf := ["x", "x"] } [] ∧
      c.lastLen = 2 ∧
      c.writer.body =
        [eventFrame "connected" "Connected to log stream",
         eventFrame "status" (getStatusHTML Stopped),
         eventFrame "log" "x"]) ∧
    (∃ (fin : Bool) (c : sseConnection) (srv1 : MinecraftServer)
        (evs : List (String × String)) (batches : List (List String)),
      HandleLogs (fun l => l) w0 [Tick.addLog "x", Tick.poll, Tick.addLog "x", Tick.poll] srv3
        = .ret (.ok (fin, c)) srv1 [] ∧
      c.writer.body = w0.body ++ evs.map (fun e => eventFrame e.1 e.2) ∧
      (evs.filter (fun e => e.1 == "log")).map Prod.snd
        = batches.map (fun b => "\n".intercalate b) ∧
      (batches.flatten.map (fun l => l)).Nodup ∧ batches.flatten.Nodup) :=
  have h := processNewLogs_filters (fun l => l)
  ⟨by rw [(h.1 _ _).2.1]; decide, ⟨_, rfl, rfl, by decide⟩,
    h.2 w0 [Tick.addLog "x", Tick.poll, Tick.addLog "x", Tick.poll] srv3 rfl rfl rfl
      (by decide)⟩

end Hoster
